import Mathlib

/-!
# cloud-dns-exporter: the Aliyun provider adapter and the collection pass

A shallow embedding of `pkg/provider/aliyun.go`, `pkg/export/cron_cache.go`
and the constants of `pkg/public/public.go`.

Conventions of the embedding.

* A Go `*string` / `*int64` field of a vendor response is an `Option`;
  `tea.StringValue` and friends turn `nil` into the zero value.
* An instant (`time.Time`) is an `Int`, the number of nanoseconds since the
  epoch; `time.Minute` is `60 * 10^9`.
* A Go `error` is a `String` (its message); `(T, error)` results are
  `Except String T`, or a pair with an `Option String` where the source
  returns a value together with a nil error.
* Library code outside the repository is a parameter: time parsing and
  formatting, the vendor SDK constructors and `strings.ToLower` are fields of
  `Lib`, the JSON encoder and the cache's verdict on an entry are fields of
  `ExportLib`; network calls and the clock are the oracles of `Env`,
  functions on an arbitrary world type `W`.
* A method call runs alone, and the goroutines of a collection pass run one
  after the other in a given order. Concurrent calls of
  `getValidCredentials` are the one exception: they are interleaved at the
  points where a call takes or releases `credentialsMutex`.
* Calls of the logger have no effect on any value the program computes and
  are left out.
* Vendor responses are taken well formed, as the SDK delivers them: a
  non-nil `Body` and non-nil list elements.
-/

set_option autoImplicit false

namespace CloudDns

/-! ## pkg/public -/

/-- Constant `public.CustomRecords`. -/
def CustomRecords : String := "custom_records"

/-- Constant `public.TencentDnsProvider`. -/
def TencentDnsProvider : String := "tencent"

/-- Constant `public.AliyunDnsProvider`. -/
def AliyunDnsProvider : String := "aliyun"

/-- Constant `public.GodaddyDnsProvider`. -/
def GodaddyDnsProvider : String := "godaddy"

/-- Constant `public.DNSLaDnsProvider`. -/
def DNSLaDnsProvider : String := "dnsla"

/-- Constant `public.AmazonDnsProvider`. -/
def AmazonDnsProvider : String := "amazon"

/-- Constant `public.CloudFlareDnsProvider`. -/
def CloudFlareDnsProvider : String := "cloudflare"

/-- Constant `public.DomainList`. -/
def DomainList : String := "domain_list"

/-- Constant `public.RecordList`. -/
def RecordList : String := "record_list"

/-- Constant `public.RecordCertInfo`. -/
def RecordCertInfo : String := "record_cert_info"

/-- Struct `public.Account`. -/
structure Account where
  CloudProvider : String
  CloudName : String
  SecretID : String
  SecretKey : String
  RoleArn : String
  EnablePrivateDNS : Bool
  deriving DecidableEq, Repr

/-! ## The unified model (fields as the adapter fills them) -/

/-- Struct `provider.Domain`. -/
structure Domain where
  CloudProvider : String
  CloudName : String
  DomainID : String
  DomainName : String
  DomainType : String
  DomainRemark : String
  DomainStatus : String
  CreatedDate : String
  ExpiryDate : String
  DaysUntilExpiry : Int
  deriving DecidableEq, Repr

/-- Struct `provider.Record`. -/
structure Record where
  CloudProvider : String
  CloudName : String
  DomainName : String
  DomainType : String
  RecordID : String
  RecordType : String
  RecordName : String
  RecordValue : String
  RecordTTL : String
  RecordWeight : String
  RecordStatus : String
  RecordRemark : String
  UpdateTime : String
  FullRecord : String
  deriving DecidableEq, Repr

/-! ## Vendor SDK data -/

/-- The fields of `openapi.Config` that the adapter sets. -/
structure Config where
  AccessKeyId : String
  AccessKeySecret : String
  SecurityToken : Option String
  Endpoint : String
  deriving DecidableEq, Repr

/-- Item of a `DescribeDomains` page (public DNS). -/
structure PublicDomainItem where
  CreateTime : Option String
  DomainName : Option String
  Remark : Option String
  deriving DecidableEq, Repr

/-- Item of a `DescribeZones` page (private DNS). -/
structure PrivateZoneItem where
  CreateTime : Option String
  ZoneId : Option String
  ZoneName : Option String
  Remark : Option String
  deriving DecidableEq, Repr

/-- Item of a `DescribeDomainRecords` page (public DNS). -/
structure PublicRecordItem where
  RecordId : Option String
  Type_ : Option String
  RR : Option String
  Value : Option String
  TTL : Option Int
  Status : Option String
  Weight : Option Int
  Remark : Option String
  UpdateTimestamp : Option Int
  deriving DecidableEq, Repr

/-- Item of a `DescribeZoneRecords` page (private DNS). -/
structure PrivateRecordItem where
  RecordId : Option Int
  Type_ : Option String
  Rr : Option String
  Value : Option String
  Ttl : Option Int
  Status : Option String
  Weight : Option Int
  Remark : Option String
  deriving DecidableEq, Repr

/-- The (`tea`) helper `StringValue`: a nil pointer reads as the empty string. -/
def StringValue (s : Option String) : String := s.getD ""

/-- The (`tea`) helpers `Int64Value` / `Int32Value`: a nil pointer reads as 0. -/
def IntValue (n : Option Int) : Int := n.getD 0

/-- Go `fmt.Sprintf("%d", n)`. -/
def fmtD (n : Int) : String := toString n

/-- Library functions the adapter calls that are not part of the repository. -/
structure Lib where
  /-- The instant of Go `time.Parse(layout, value)`. -/
  timeParse : String → String → Except String Int
  /-- The text `t.Format(out)` for the `t` of `t, err := time.Parse(layout, value)`,
  in the zone of the parsed value; arguments `layout`, `value`, `out`. -/
  timeParseFormat : String → String → String → Except String String
  /-- Go `strings.ToLower`. -/
  toLower : String → String
  /-- The call `carbon.CreateFromTimestampMilli(ms).ToDateTimeString()`. -/
  carbonDateTime : Int → String
  /-- The error, if any, of `alidns.NewClient(&config)`. -/
  dnsNewClient : Config → Option String
  /-- The error, if any, of `pvtz.NewClient(&config)`. -/
  pvtzNewClient : Config → Option String
  /-- The error, if any, of `sts.NewClient(&config)`. -/
  stsNewClient : Config → Option String

/-! ## Record converters -/

/-- Method `convertPublicRecordToCommon` of `pkg/provider/aliyun.go`. -/
def convertPublicRecordToCommon (lib : Lib) (account : Account) (record : PublicRecordItem)
    (domainName _domainID domainType : String) : Record :=
  let recordID := StringValue record.RecordId
  let recordType := StringValue record.Type_
  let rr := StringValue record.RR
  let value := StringValue record.Value
  let ttl := IntValue record.TTL
  let status := StringValue record.Status
  let weight := IntValue record.Weight
  let recordStatus := if lib.toLower status = "enable" then "enable" else "disable"
  let fullRecord := if rr = "@" ∨ rr = "" then domainName else rr ++ "." ++ domainName
  let updateTime :=
    match record.UpdateTimestamp with
    | some ts => lib.carbonDateTime ts
    | none => ""
  { CloudProvider := account.CloudProvider
    CloudName := account.CloudName
    DomainName := domainName
    DomainType := domainType
    RecordID := recordID
    RecordType := recordType
    RecordName := rr
    RecordValue := value
    RecordTTL := fmtD ttl
    RecordWeight := fmtD weight
    RecordStatus := recordStatus
    RecordRemark := StringValue record.Remark
    UpdateTime := updateTime
    FullRecord := fullRecord }

/-- Method `convertPrivateRecordToCommon` of `pkg/provider/aliyun.go`. -/
def convertPrivateRecordToCommon (lib : Lib) (account : Account) (record : PrivateRecordItem)
    (domainName _domainID domainType : String) : Record :=
  let recordID := fmtD (IntValue record.RecordId)
  let recordType := StringValue record.Type_
  let rr := StringValue record.Rr
  let value := StringValue record.Value
  let ttl := IntValue record.Ttl
  let status := StringValue record.Status
  let weight := IntValue record.Weight
  let recordStatus := if lib.toLower status = "enable" then "enable" else "disable"
  let fullRecord := if rr = "@" ∨ rr = "" then domainName else rr ++ "." ++ domainName
  { CloudProvider := account.CloudProvider
    CloudName := account.CloudName
    DomainName := domainName
    DomainType := domainType
    RecordID := recordID
    RecordType := recordType
    RecordName := rr
    RecordValue := value
    RecordTTL := fmtD ttl
    RecordWeight := fmtD weight
    RecordStatus := recordStatus
    RecordRemark := StringValue record.Remark
    UpdateTime := ""
    FullRecord := fullRecord }

/-! ## Domain converters -/

/-- Method `convertPublicDomainToCommon` of `pkg/provider/aliyun.go`. -/
def convertPublicDomainToCommon (lib : Lib) (account : Account) (domain : PublicDomainItem) :
    Domain :=
  let createdDate :=
    match domain.CreateTime with
    | none => ""
    | some ct =>
      if ct ≠ "" then
        match lib.timeParseFormat "2006-01-02T15:04Z" ct "2006-01-02 15:04:05" with
        | .ok createdDate => createdDate
        | .error _ => ""
      else ""
  let domainName := StringValue domain.DomainName
  { CloudProvider := account.CloudProvider
    CloudName := account.CloudName
    DomainID := "public_" ++ domainName
    DomainName := domainName
    DomainType := "public"
    DomainRemark := StringValue domain.Remark
    DomainStatus := "normal"
    CreatedDate := createdDate
    ExpiryDate := ""
    DaysUntilExpiry := 0 }

/-- Go constant `time.RFC3339`. -/
def RFC3339 : String := "2006-01-02T15:04:05Z07:00"

/-- The loop over `timeFormats` in `convertPrivateDomainToCommon`: the first
layout that parses wins; `createdDate` stays empty when none does. -/
def firstParsedDate (lib : Lib) (value : String) : List String → String
  | [] => ""
  | format :: rest =>
    match lib.timeParseFormat format value "2006-01-02 15:04:05" with
    | .ok createdDate => createdDate
    | .error _ => firstParsedDate lib value rest

/-- Method `convertPrivateDomainToCommon` of `pkg/provider/aliyun.go`. -/
def convertPrivateDomainToCommon (lib : Lib) (account : Account) (zone : PrivateZoneItem) :
    Domain :=
  let createdDate :=
    match zone.CreateTime with
    | none => ""
    | some ct =>
      if ct ≠ "" then
        firstParsedDate lib ct
          ["2006-01-02T15:04:05Z", "2006-01-02T15:04:05.000Z", "2006-01-02 15:04:05", RFC3339]
      else ""
  let zoneId := StringValue zone.ZoneId
  let zoneName := StringValue zone.ZoneName
  { CloudProvider := account.CloudProvider
    CloudName := account.CloudName
    DomainID := "private_" ++ zoneId
    DomainName := zoneName
    DomainType := "private"
    DomainRemark := StringValue zone.Remark
    DomainStatus := "normal"
    CreatedDate := createdDate
    ExpiryDate := ""
    DaysUntilExpiry := 0 }

/-! ## Credentials -/

/-- Go `time.Minute`, in nanoseconds. -/
def Minute : Int := 60 * 1000000000

/-- Go `time.Second`, in nanoseconds. -/
def Second : Int := 1000000000

/-- Struct `STSCredentials`. -/
structure STSCredentials where
  AccessKeyId : String
  AccessKeySecret : String
  SecurityToken : String
  Expiration : Int
  deriving DecidableEq, Repr

/-- Struct `AliyunDNS`. The two client fields hold the configuration the
client was built from. The `credentialsMutex` field has no counterpart:
the embedding runs one call at a time. -/
structure AliyunDNS where
  account : Account
  client : Option Config := none
  pvtzClient : Option Config := none
  stsCredentials : Option STSCredentials := none
  deriving DecidableEq, Repr

/-- The `Credentials` part of an `AssumeRole` response body. -/
structure AssumeRoleCredentials where
  AccessKeyId : Option String
  AccessKeySecret : Option String
  SecurityToken : Option String
  Expiration : Option String
  deriving DecidableEq, Repr

/-- Body of an `AssumeRole` response. -/
structure AssumeRoleBody where
  Credentials : Option AssumeRoleCredentials
  deriving DecidableEq, Repr

/-- An `AssumeRole` response. -/
structure AssumeRoleResponse where
  Body : Option AssumeRoleBody
  deriving DecidableEq, Repr

/-- Struct `sts.AssumeRoleRequest`. -/
structure AssumeRoleRequest where
  RoleArn : String
  RoleSessionName : String
  DurationSeconds : Int
  deriving DecidableEq, Repr

/-- The `Domains` field of a `DescribeDomains` response body (`nil` or a page). -/
structure DescribeDomainsResponse where
  Domains : Option (List PublicDomainItem)
  deriving DecidableEq, Repr

/-- The `Zones` field of a `DescribeZones` response body. -/
structure DescribeZonesResponse where
  Zones : Option (List PrivateZoneItem)
  deriving DecidableEq, Repr

/-- The `DomainRecords` field of a `DescribeDomainRecords` response body. -/
structure DescribeDomainRecordsResponse where
  DomainRecords : Option (List PublicRecordItem)
  deriving DecidableEq, Repr

/-- The `Records` field of a `DescribeZoneRecords` response body. -/
structure DescribeZoneRecordsResponse where
  Records : Option (List PrivateRecordItem)
  deriving DecidableEq, Repr

/-- The outside world as the adapter sees it: the clock and the vendor
endpoints, each a function of the current world that also gives the next
world. A client is passed as the configuration it was built from. -/
structure Env (W : Type) where
  /-- Go `time.Now()`. -/
  timeNow : W → Int × W
  /-- The call `stsClient.AssumeRole(request)`. -/
  stsAssumeRole : Config → AssumeRoleRequest → W → Except String AssumeRoleResponse × W
  /-- The call `client.DescribeDomains` with `PageNumber` and `PageSize`. -/
  describeDomains : Config → Int → Int → W → Except String DescribeDomainsResponse × W
  /-- The call `client.DescribeZones` with `PageNumber` and `PageSize`. -/
  describeZones : Config → Int → Int → W → Except String DescribeZonesResponse × W
  /-- The call `client.DescribeDomainRecords` with `DomainName`, `PageNumber`, `PageSize`. -/
  describeDomainRecords :
    Config → String → Int → Int → W → Except String DescribeDomainRecordsResponse × W
  /-- The call `client.DescribeZoneRecords` with `ZoneId`, `PageNumber`, `PageSize`. -/
  describeZoneRecords :
    Config → String → Int → Int → W → Except String DescribeZoneRecordsResponse × W

/-- Method `STSCredentials.IsExpired`: `time.Now().After(c.Expiration.Add(-5 * time.Minute))`. -/
def STSCredentials.IsExpired {W : Type} (env : Env W) (c : STSCredentials) (w : W) : Bool × W :=
  let (now, w₁) := env.timeNow w
  (decide (now > c.Expiration + (-5) * Minute), w₁)

/-- Function `NewAliyunClient`. -/
def NewAliyunClient (lib : Lib) (secretID secretKey : String) : Except String Config :=
  let config : Config :=
    { AccessKeyId := secretID, AccessKeySecret := secretKey, SecurityToken := none,
      Endpoint := "dns.aliyuncs.com" }
  match lib.dnsNewClient config with
  | some err => .error err
  | none => .ok config

/-- Function `NewAliyunClientWithSTS`. -/
def NewAliyunClientWithSTS (lib : Lib) (accessKeyId accessKeySecret securityToken : String) :
    Except String Config :=
  let config : Config :=
    { AccessKeyId := accessKeyId, AccessKeySecret := accessKeySecret,
      SecurityToken := some securityToken, Endpoint := "alidns.aliyuncs.com" }
  match lib.dnsNewClient config with
  | some err => .error err
  | none => .ok config

/-- Function `NewAliyunPVTZClient`. -/
def NewAliyunPVTZClient (lib : Lib) (secretID secretKey _region : String) :
    Except String Config :=
  let config : Config :=
    { AccessKeyId := secretID, AccessKeySecret := secretKey, SecurityToken := none,
      Endpoint := "pvtz.aliyuncs.com" }
  match lib.pvtzNewClient config with
  | some err => .error err
  | none => .ok config

/-- Function `NewAliyunPVTZClientWithSTS`. -/
def NewAliyunPVTZClientWithSTS (lib : Lib)
    (accessKeyId accessKeySecret securityToken region : String) : Except String Config :=
  let region := if region = "" then "ap-northeast-1" else region
  let config : Config :=
    { AccessKeyId := accessKeyId, AccessKeySecret := accessKeySecret,
      SecurityToken := some securityToken,
      Endpoint := "pvtz." ++ region ++ ".aliyuncs.com" }
  match lib.pvtzNewClient config with
  | some err => .error err
  | none => .ok config

/-- The `config` that `assumeRole` builds its security-token client from. -/
def stsConfig (account : Account) : Config :=
  { AccessKeyId := account.SecretID, AccessKeySecret := account.SecretKey,
    SecurityToken := none, Endpoint := "sts.aliyuncs.com" }

/-- The `request` that `assumeRole` sends (session name `dns_exporter_session`,
one hour). -/
def stsRequest (account : Account) : AssumeRoleRequest :=
  { RoleArn := account.RoleArn, RoleSessionName := "dns_exporter_session",
    DurationSeconds := 3600 }

/-- Method `assumeRole`. -/
def assumeRole {W : Type} (env : Env W) (lib : Lib) (a : AliyunDNS) (w : W) :
    Except String STSCredentials × W :=
  if a.account.RoleArn = "" then (.error "roleArn 未配置", w) else
  match lib.stsNewClient (stsConfig a.account) with
  | some err => (.error ("创建 STS 客户端失败: " ++ err), w)
  | none =>
    match env.stsAssumeRole (stsConfig a.account) (stsRequest a.account) w with
    | (.error err, w₁) => (.error ("AssumeRole 失败: " ++ err), w₁)
    | (.ok response, w₁) =>
      match response.Body with
      | none => (.error "STS 响应无效", w₁)
      | some body =>
        match body.Credentials with
        | none => (.error "STS 响应无效", w₁)
        | some creds =>
          match lib.timeParse RFC3339 (StringValue creds.Expiration) with
          | .error err => (.error ("解析过期时间失败: " ++ err), w₁)
          | .ok expiration =>
            (.ok { AccessKeyId := StringValue creds.AccessKeyId
                   AccessKeySecret := StringValue creds.AccessKeySecret
                   SecurityToken := StringValue creds.SecurityToken
                   Expiration := expiration }, w₁)

/-- The condition `a.stsCredentials != nil && !a.stsCredentials.IsExpired()`:
the clock is read only when a credential is stored. -/
def storedCredentialsValid {W : Type} (env : Env W) (a : AliyunDNS) (w : W) :
    Option STSCredentials × W :=
  match a.stsCredentials with
  | none => (none, w)
  | some c =>
    let (expired, w₁) := c.IsExpired env w
    if !expired then (some c, w₁) else (none, w₁)

/-- The last part of `getValidCredentials` (from `newCreds, err := a.assumeRole()`
to the final `return`): one call of `assumeRole`; its error is returned as
it is, its credential is stored and returned. -/
def refreshCredentials {W : Type} (env : Env W) (lib : Lib) (a : AliyunDNS) (w : W) :
    Except String (Option STSCredentials) × AliyunDNS × W :=
  match assumeRole env lib a w with
  | (.error err, w₁) => (.error err, a, w₁)
  | (.ok newCreds, w₁) => (.ok (some newCreds), { a with stsCredentials := some newCreds }, w₁)

/-- Method `getValidCredentials`, one call run alone: the check under the
read lock, then the second check under the write lock, then the refresh.
The result is the returned pair, `.ok none` standing for `(nil, nil)`. -/
def getValidCredentials {W : Type} (env : Env W) (lib : Lib) (a : AliyunDNS) (w : W) :
    Except String (Option STSCredentials) × AliyunDNS × W :=
  if a.account.RoleArn = "" then (.ok none, a, w) else
  match storedCredentialsValid env a w with
  | (some c, w₁) => (.ok (some c), a, w₁)
  | (none, w₁) =>
    match storedCredentialsValid env a w₁ with
    | (some c, w₂) => (.ok (some c), a, w₂)
    | (none, w₂) => refreshCredentials env lib a w₂

/-- Method `createDNSClient`. -/
def createDNSClient {W : Type} (env : Env W) (lib : Lib) (a : AliyunDNS) (w : W) :
    Except String Config × AliyunDNS × W :=
  match getValidCredentials env lib a w with
  | (.error err, a₁, w₁) => (.error ("获取STS凭证失败: " ++ err), a₁, w₁)
  | (.ok (some creds), a₁, w₁) =>
    (NewAliyunClientWithSTS lib creds.AccessKeyId creds.AccessKeySecret creds.SecurityToken,
      a₁, w₁)
  | (.ok none, a₁, w₁) =>
    (NewAliyunClient lib a.account.SecretID a.account.SecretKey, a₁, w₁)

/-- Method `createPVTZClient`. -/
def createPVTZClient {W : Type} (env : Env W) (lib : Lib) (a : AliyunDNS) (region : String)
    (w : W) : Except String Config × AliyunDNS × W :=
  match getValidCredentials env lib a w with
  | (.error err, a₁, w₁) => (.error ("获取STS凭证失败: " ++ err), a₁, w₁)
  | (.ok (some creds), a₁, w₁) =>
    (NewAliyunPVTZClientWithSTS lib creds.AccessKeyId creds.AccessKeySecret
      creds.SecurityToken region, a₁, w₁)
  | (.ok none, a₁, w₁) =>
    (NewAliyunPVTZClient lib a.account.SecretID a.account.SecretKey region, a₁, w₁)

/-- Function `NewAliyunDNS`. -/
def NewAliyunDNS {W : Type} (env : Env W) (lib : Lib) (account : Account) (w : W) :
    Except String AliyunDNS × W :=
  let aliyunDNS : AliyunDNS := { account := account }
  match createDNSClient env lib aliyunDNS w with
  | (.error err, _, w₁) => (.error err, w₁)
  | (.ok client, a₁, w₁) => (.ok { a₁ with client := some client }, w₁)

/-! ## Paginated listings

The page counters are Go `int64` (public DNS) and `int32` (private DNS)
variables; `pageNumber++` wraps around. A `for` loop without a condition is
a recursion on a step budget `fuel`: `none` means the budget ran out before
the loop returned. -/

/-- Two's-complement wrap of an `int64` result. -/
def wrapInt64 (x : Int) : Int := (x + 2 ^ 63) % 2 ^ 64 - 2 ^ 63

/-- Two's-complement wrap of an `int32` result. -/
def wrapInt32 (x : Int) : Int := (x + 2 ^ 31) % 2 ^ 32 - 2 ^ 31

/-- The `for` loop of `listPublicDomains` (from `var allDomains` to the final
`return`), entered with `pageNumber` and the items collected so far. -/
def listPublicDomainsPages {W : Type} (env : Env W) (lib : Lib) (account : Account)
    (client : Config) : Nat → Int → List Domain → W → Option (Except String (List Domain) × W)
  | 0, _, _, _ => none
  | fuel + 1, pageNumber, allDomains, w =>
    let pageSize : Int := 100
    match env.describeDomains client pageNumber pageSize w with
    | (.error err, w₁) => some (.error ("查询公网DNS域名失败: " ++ err), w₁)
    | (.ok response, w₁) =>
      match response.Domains with
      | none => some (.ok allDomains, w₁)
      | some page =>
        if page.length = 0 then some (.ok allDomains, w₁) else
        let allDomains := allDomains ++ page.map (convertPublicDomainToCommon lib account)
        if (page.length : Int) < pageSize then some (.ok allDomains, w₁)
        else listPublicDomainsPages env lib account client fuel (wrapInt64 (pageNumber + 1))
          allDomains w₁

/-- Method `listPublicDomains`. -/
def listPublicDomains {W : Type} (env : Env W) (lib : Lib) (fuel : Nat) (a : AliyunDNS) (w : W) :
    Option (Except String (List Domain) × AliyunDNS × W) :=
  match createDNSClient env lib a w with
  | (.error err, a₁, w₁) => some (.error err, a₁, w₁)
  | (.ok client, a₁, w₁) =>
    match listPublicDomainsPages env lib a₁.account client fuel 1 [] w₁ with
    | none => none
    | some (r, w₂) => some (r, a₁, w₂)

/-- The `for` loop of `listPrivateDomains`. -/
def listPrivateDomainsPages {W : Type} (env : Env W) (lib : Lib) (account : Account)
    (client : Config) : Nat → Int → List Domain → W → Option (Except String (List Domain) × W)
  | 0, _, _, _ => none
  | fuel + 1, pageNumber, allDomains, w =>
    let pageSize : Int := 100
    match env.describeZones client pageNumber pageSize w with
    | (.error err, w₁) => some (.error ("查询内网DNS域名失败: " ++ err), w₁)
    | (.ok response, w₁) =>
      match response.Zones with
      | none => some (.ok allDomains, w₁)
      | some page =>
        if page.length = 0 then some (.ok allDomains, w₁) else
        let allDomains := allDomains ++ page.map (convertPrivateDomainToCommon lib account)
        if (page.length : Int) < pageSize then some (.ok allDomains, w₁)
        else listPrivateDomainsPages env lib account client fuel (wrapInt32 (pageNumber + 1))
          allDomains w₁

/-- Method `listPrivateDomains`. -/
def listPrivateDomains {W : Type} (env : Env W) (lib : Lib) (fuel : Nat) (a : AliyunDNS)
    (w : W) : Option (Except String (List Domain) × AliyunDNS × W) :=
  match createPVTZClient env lib a "cn-hangzhou" w with
  | (.error err, a₁, w₁) => some (.error err, a₁, w₁)
  | (.ok client, a₁, w₁) =>
    match listPrivateDomainsPages env lib a₁.account client fuel 1 [] w₁ with
    | none => none
    | some (r, w₂) => some (r, a₁, w₂)

/-- The items a listing contributes to the result: those it returned, none
when it returned an error. -/
def collected {α : Type} : Except String (List α) → List α
  | .ok items => items
  | .error _ => []

/-- Method `ListDomains`. The second component of the result is the
returned `error`. -/
def ListDomains {W : Type} (env : Env W) (lib : Lib) (fuel : Nat) (a : AliyunDNS) (w : W) :
    Option ((List Domain × Option String) × AliyunDNS × W) :=
  match listPublicDomains env lib fuel a w with
  | none => none
  | some (publicDomains, a₁, w₁) =>
    let allDomains : List Domain :=
      match publicDomains with
      | .error _ => []
      | .ok ds => [] ++ ds
    if a₁.account.EnablePrivateDNS then
      match listPrivateDomains env lib fuel a₁ w₁ with
      | none => none
      | some (privateDomains, a₂, w₂) =>
        let allDomains : List Domain :=
          match privateDomains with
          | .error _ => allDomains
          | .ok ds => allDomains ++ ds
        some ((allDomains, none), a₂, w₂)
    else some ((allDomains, none), a₁, w₁)

/-- Method `getDomainRecords`: the page loop, entered with `pageNumber` and
the records collected so far (page size 500). -/
def getDomainRecords {W : Type} (env : Env W) (lib : Lib) (account : Account)
    (client : Config) (domainName domainID domainType : String) :
    Nat → Int → List Record → W → Option (Except String (List Record) × W)
  | 0, _, _, _ => none
  | fuel + 1, pageNumber, allRecords, w =>
    let pageSize : Int := 500
    match env.describeDomainRecords client domainName pageNumber pageSize w with
    | (.error err, w₁) =>
      some (.error ("查询域名 " ++ domainName ++ " 的DNS记录失败: " ++ err), w₁)
    | (.ok response, w₁) =>
      match response.DomainRecords with
      | none => some (.ok allRecords, w₁)
      | some page =>
        if page.length = 0 then some (.ok allRecords, w₁) else
        let allRecords := allRecords ++
          page.map (fun r => convertPublicRecordToCommon lib account r domainName domainID
            domainType)
        if (page.length : Int) < pageSize then some (.ok allRecords, w₁)
        else getDomainRecords env lib account client domainName domainID domainType fuel
          (wrapInt64 (pageNumber + 1)) allRecords w₁

/-- Method `getPrivateZoneRecords`: the page loop (page size 100). -/
def getPrivateZoneRecords {W : Type} (env : Env W) (lib : Lib) (account : Account)
    (client : Config) (zoneId domainName domainID domainType : String) :
    Nat → Int → List Record → W → Option (Except String (List Record) × W)
  | 0, _, _, _ => none
  | fuel + 1, pageNumber, allRecords, w =>
    let pageSize : Int := 100
    match env.describeZoneRecords client zoneId pageNumber pageSize w with
    | (.error err, w₁) =>
      some (.error ("查询内网域名 " ++ domainName ++ " 的DNS记录失败: " ++ err), w₁)
    | (.ok response, w₁) =>
      match response.Records with
      | none => some (.ok allRecords, w₁)
      | some page =>
        if page.length = 0 then some (.ok allRecords, w₁) else
        let allRecords := allRecords ++
          page.map (fun r => convertPrivateRecordToCommon lib account r domainName domainID
            domainType)
        if (page.length : Int) < pageSize then some (.ok allRecords, w₁)
        else getPrivateZoneRecords env lib account client zoneId domainName domainID
          domainType fuel (wrapInt32 (pageNumber + 1)) allRecords w₁

/-- The loop over `publicDomains` in `listPublicRecords`: a domain whose
records cannot be read is skipped. -/
def publicRecordsOfDomains {W : Type} (env : Env W) (lib : Lib) (account : Account)
    (client : Config) (fuel : Nat) : List Domain → List Record → W → Option (List Record × W)
  | [], allRecords, w => some (allRecords, w)
  | domain :: rest, allRecords, w =>
    match getDomainRecords env lib account client domain.DomainName domain.DomainID "public"
        fuel 1 [] w with
    | none => none
    | some (.error _, w₁) => publicRecordsOfDomains env lib account client fuel rest allRecords w₁
    | some (.ok records, w₁) =>
      publicRecordsOfDomains env lib account client fuel rest (allRecords ++ records) w₁

/-- Method `listPublicRecords`. -/
def listPublicRecords {W : Type} (env : Env W) (lib : Lib) (fuel : Nat) (a : AliyunDNS) (w : W) :
    Option (Except String (List Record) × AliyunDNS × W) :=
  match listPublicDomains env lib fuel a w with
  | none => none
  | some (.error err, a₁, w₁) => some (.error ("获取公网域名列表失败: " ++ err), a₁, w₁)
  | some (.ok publicDomains, a₁, w₁) =>
    match createDNSClient env lib a₁ w₁ with
    | (.error err, a₂, w₂) => some (.error err, a₂, w₂)
    | (.ok client, a₂, w₂) =>
      match publicRecordsOfDomains env lib a₂.account client fuel publicDomains [] w₂ with
      | none => none
      | some (allRecords, w₃) => some (.ok allRecords, a₂, w₃)

/-- Go `strings.TrimPrefix`. -/
def TrimPrefix (s pre : String) : String :=
  if pre.data.isPrefixOf s.data then String.mk (s.data.drop pre.length) else s

/-- The loop over `privateDomains` in `listPrivateRecords`. -/
def privateRecordsOfDomains {W : Type} (env : Env W) (lib : Lib) (account : Account)
    (client : Config) (fuel : Nat) : List Domain → List Record → W → Option (List Record × W)
  | [], allRecords, w => some (allRecords, w)
  | domain :: rest, allRecords, w =>
    let zoneId := TrimPrefix domain.DomainID "private_"
    match getPrivateZoneRecords env lib account client zoneId domain.DomainName domain.DomainID
        "private" fuel 1 [] w with
    | none => none
    | some (.error _, w₁) =>
      privateRecordsOfDomains env lib account client fuel rest allRecords w₁
    | some (.ok records, w₁) =>
      privateRecordsOfDomains env lib account client fuel rest (allRecords ++ records) w₁

/-- Method `listPrivateRecords`. -/
def listPrivateRecords {W : Type} (env : Env W) (lib : Lib) (fuel : Nat) (a : AliyunDNS)
    (w : W) : Option (Except String (List Record) × AliyunDNS × W) :=
  match listPrivateDomains env lib fuel a w with
  | none => none
  | some (.error err, a₁, w₁) => some (.error ("获取内网域名列表失败: " ++ err), a₁, w₁)
  | some (.ok privateDomains, a₁, w₁) =>
    match createPVTZClient env lib a₁ "cn-hangzhou" w₁ with
    | (.error err, a₂, w₂) => some (.error err, a₂, w₂)
    | (.ok client, a₂, w₂) =>
      match privateRecordsOfDomains env lib a₂.account client fuel privateDomains [] w₂ with
      | none => none
      | some (allRecords, w₃) => some (.ok allRecords, a₂, w₃)

/-- Method `ListRecords`. The second component of the result is the
returned `error`. -/
def ListRecords {W : Type} (env : Env W) (lib : Lib) (fuel : Nat) (a : AliyunDNS) (w : W) :
    Option ((List Record × Option String) × AliyunDNS × W) :=
  match listPublicRecords env lib fuel a w with
  | none => none
  | some (publicRecords, a₁, w₁) =>
    let allRecords : List Record :=
      match publicRecords with
      | .error _ => []
      | .ok rs => [] ++ rs
    if a₁.account.EnablePrivateDNS then
      match listPrivateRecords env lib fuel a₁ w₁ with
      | none => none
      | some (privateRecords, a₂, w₂) =>
        let allRecords : List Record :=
          match privateRecords with
          | .error _ => allRecords
          | .ok rs => allRecords ++ rs
        some ((allRecords, none), a₂, w₂)
    else some ((allRecords, none), a₁, w₁)

/-! ## Observing the network calls

`Env.traced` runs an environment unchanged and writes down, in order, every
call that reaches a vendor endpoint. `feedEnv` is a vendor double that
serves a prepared sequence of pages, one page per request. -/

/-- A call to a vendor endpoint, with the arguments of the request. -/
inductive Call where
  | AssumeRole (request : AssumeRoleRequest)
  | DescribeDomains (pageNumber pageSize : Int)
  | DescribeZones (pageNumber pageSize : Int)
  | DescribeDomainRecords (domainName : String) (pageNumber pageSize : Int)
  | DescribeZoneRecords (zoneId : String) (pageNumber pageSize : Int)
  deriving DecidableEq, Repr

/-- The environment `env` with a log of the vendor calls made so far (oldest
first) added to the world. The clock is not a vendor call. -/
def Env.traced {W : Type} (env : Env W) : Env (W × List Call) where
  timeNow := fun (w, log) =>
    let (t, w₁) := env.timeNow w
    (t, (w₁, log))
  stsAssumeRole := fun c req (w, log) =>
    let (r, w₁) := env.stsAssumeRole c req w
    (r, (w₁, log ++ [Call.AssumeRole req]))
  describeDomains := fun c pn ps (w, log) =>
    let (r, w₁) := env.describeDomains c pn ps w
    (r, (w₁, log ++ [Call.DescribeDomains pn ps]))
  describeZones := fun c pn ps (w, log) =>
    let (r, w₁) := env.describeZones c pn ps w
    (r, (w₁, log ++ [Call.DescribeZones pn ps]))
  describeDomainRecords := fun c d pn ps (w, log) =>
    let (r, w₁) := env.describeDomainRecords c d pn ps w
    (r, (w₁, log ++ [Call.DescribeDomainRecords d pn ps]))
  describeZoneRecords := fun c z pn ps (w, log) =>
    let (r, w₁) := env.describeZoneRecords c z pn ps w
    (r, (w₁, log ++ [Call.DescribeZoneRecords z pn ps]))

/-- World of the vendor double: the pages not served yet. -/
structure PageFeed where
  domains : List (List PublicDomainItem)
  zones : List (List PrivateZoneItem)
  deriving DecidableEq, Repr

/-- A vendor double: every `DescribeDomains` (`DescribeZones`) request is
answered with the next page of the feed, whatever page number it asks for,
and with an empty page once the feed is used up. The clock stands at 0 and
the other endpoints refuse. -/
def feedEnv : Env PageFeed where
  timeNow := fun w => (0, w)
  stsAssumeRole := fun _ _ w => (.error "unavailable", w)
  describeDomains := fun _ _ _ w =>
    match w.domains with
    | [] => (.ok { Domains := some [] }, w)
    | page :: rest => (.ok { Domains := some page }, { w with domains := rest })
  describeZones := fun _ _ _ w =>
    match w.zones with
    | [] => (.ok { Zones := some [] }, w)
    | page :: rest => (.ok { Zones := some page }, { w with zones := rest })
  describeDomainRecords := fun _ _ _ _ w => (.error "unavailable", w)
  describeZoneRecords := fun _ _ _ _ w => (.error "unavailable", w)

/-- A library double for evaluating examples: times do not parse and the
SDK constructors accept every configuration. -/
def demoLib : Lib where
  timeParse := fun _ _ => .error "cannot parse"
  timeParseFormat := fun _ _ _ => .error "cannot parse"
  toLower := String.toLower
  carbonDateTime := fun _ => ""
  dnsNewClient := fun _ => none
  pvtzNewClient := fun _ => none
  stsNewClient := fun _ => none

/-! ## pkg/export: the domain and record collection pass -/

/-- An account of the configuration, a Go `map[string]string`. -/
abbrev AccountAttrs := List (String × String)

/-- Go map indexing `account[key]`: the empty string when the key is absent. -/
def AccountAttrs.get (account : AccountAttrs) (key : String) : String :=
  (account.lookup key).getD ""

/-- The cache (`public.Cache`), as the list of its entries, newest first.
Expiry of entries is not part of the embedding. -/
abbrev Cache := List (String × String)

/-- The value stored under `key`, if any (`Cache.Get`). -/
def Cache.Get (cache : Cache) (key : String) : Option String := cache.lookup key

/-- Library and collaborator functions of the collection pass. -/
structure ExportLib where
  /-- Go `json.Marshal` on a list of domains. -/
  marshalDomains : List Domain → Except String String
  /-- Go `json.Marshal` on a list of records. -/
  marshalRecords : List Record → Except String String
  /-- The error, if any, with which the cache refuses to store an entry. -/
  cacheSetError : String → String → Option String

/-- The call `public.Cache.Set(key, value)` with its error only logged: the
entry is stored unless the cache refuses it. -/
def cacheSet (xl : ExportLib) (cache : Cache) (key value : String) : Cache :=
  match xl.cacheSetError key value with
  | some _ => cache
  | none => (key, value) :: cache

/-- The provider side of the pass: `provider.Factory.Create` and the two
methods of the provider interface, for providers with state `P`. A method
gives `none` when it does not return. -/
structure Factory (P W : Type) where
  Create : String → AccountAttrs → W → Except String P × W
  ListDomains : P → W → Option ((List Domain × Option String) × P × W)
  ListRecords : P → W → Option ((List Record × Option String) × P × W)

/-- The key `domainListCacheKey` of `loading`. -/
def domainListCacheKey (cloudProvider cloudName : String) : String :=
  DomainList ++ "_" ++ cloudProvider ++ "_" ++ cloudName

/-- The key `recordListCacheKey` of `loading`. -/
def recordListCacheKey (cloudProvider cloudName : String) : String :=
  RecordList ++ "_" ++ cloudProvider ++ "_" ++ cloudName

/-- The body of the goroutine that `loading` starts for one account, run
from the cache `cache` and the world `w`. A failed `json.Marshal` leaves
`value` nil, the empty byte string. -/
def loadingTask {P W : Type} (F : Factory P W) (xl : ExportLib)
    (cloudProvider cloudName : String) (account : AccountAttrs) (cache : Cache) (w : W) :
    Option (Cache × W) :=
  match F.Create cloudProvider account w with
  | (.error _, w₁) => some (cache, w₁)
  | (.ok dnsProvider, w₁) =>
    match F.ListDomains dnsProvider w₁ with
    | none => none
    | some ((_, some _), _, w₂) => some (cache, w₂)
    | some ((domains, none), dnsProvider, w₂) =>
      let value :=
        match xl.marshalDomains domains with
        | .ok value => value
        | .error _ => ""
      let cache := cacheSet xl cache (domainListCacheKey cloudProvider cloudName) value
      match F.ListRecords dnsProvider w₂ with
      | none => none
      | some ((_, some _), _, w₃) => some (cache, w₃)
      | some ((records, none), _, w₃) =>
        match xl.marshalRecords records with
        | .error _ => some (cache, w₃)
        | .ok value =>
          some (cacheSet xl cache (recordListCacheKey cloudProvider cloudName) value, w₃)

/-- One account of the pass: provider id, account name, attribute map. -/
abbrev Task := String × String × AccountAttrs

/-- Struct `public.Configuration`; the map `CloudProviders` is the list of
its entries. -/
structure Configuration where
  CustomRecords : List String
  CloudProviders : List (String × List AccountAttrs)

/-- The accounts that `loading` starts a goroutine for, with the arguments
each goroutine gets (`cloudProvider`, `cloudAccount["name"]`, `cloudAccount`). -/
def tasksOf (config : Configuration) : List Task :=
  config.CloudProviders.flatMap fun entry =>
    entry.2.map fun cloudAccount => (entry.1, cloudAccount.get "name", cloudAccount)

/-- Function `loading`, for one schedule of its goroutines: the accounts are
served one after the other in the order of `tasks`, each goroutine running
to its end, and the pass returns when all have returned (`wg.Wait()`). -/
def loading {P W : Type} (F : Factory P W) (xl : ExportLib) :
    List Task → Cache → W → Option (Cache × W)
  | [], cache, w => some (cache, w)
  | task :: rest, cache, w =>
    match loadingTask F xl task.1 task.2.1 task.2.2 cache w with
    | none => none
    | some (cache₁, w₁) => loading F xl rest cache₁ w₁

/-- Modelled from the spec: the provider factory is not among the source
files; for the Aliyun provider it builds the adapter from the account read
off the attribute map (keys as the yaml tags of `public.Account`). -/
def accountOfAttrs (cloudProvider : String) (account : AccountAttrs) : Account :=
  { CloudProvider := cloudProvider
    CloudName := account.get "name"
    SecretID := account.get "secretId"
    SecretKey := account.get "secretKey"
    RoleArn := account.get "roleArn"
    EnablePrivateDNS := account.get "enablePrivateDNS" == "true" }

/-- The Aliyun adapter as the provider side of the pass. -/
def aliyunFactory {W : Type} (env : Env W) (lib : Lib) (fuel : Nat) : Factory AliyunDNS W where
  Create := fun cloudProvider account w =>
    NewAliyunDNS env lib (accountOfAttrs cloudProvider account) w
  ListDomains := ListDomains env lib fuel
  ListRecords := ListRecords env lib fuel

/-! ## pkg/export: the certificate passes -/

/-- Struct `provider.GetRecordCertReq`. -/
structure GetRecordCertReq where
  CloudProvider : String
  CloudName : String
  DomainName : String
  DomainType : String
  FullRecord : String
  RecordValue : String
  RecordID : String
  deriving DecidableEq, Repr

/-- Collaborators of the certificate passes that are not among the source
files, for certificate results of type `CI`. The change detection
`getNewRecord` may consult both caches and the world; the probe
`GetMultipleCertInfo` works on the world. -/
structure CertLib (CI W : Type) where
  /-- Go `json.Unmarshal` into a list of records. -/
  unmarshalRecords : String → Except String (List Record)
  /-- Function `getNewRecord` of package `export`. -/
  getNewRecord : List Record → Cache → Cache → W → List Record × W
  /-- Function `GetMultipleCertInfo` of package `export`. -/
  GetMultipleCertInfo : List GetRecordCertReq → W → Except String (List CI) × W
  /-- Go `json.Marshal` on a list of certificate results. -/
  marshalCerts : List CI → Except String String
  /-- The error, if any, with which the certificate cache refuses an entry. -/
  certCacheSetError : String → String → Option String
  /-- The call `publicsuffix.Domain(v)`: the returned string and the error. -/
  publicSuffixDomain : String → String × Option String
  /-- Function `public.GetID`. -/
  GetID : W → String × W

/-- The call `public.CertCache.Set(key, value)` with its error only logged. -/
def certCacheSet {CI W : Type} (cl : CertLib CI W) (certCache : Cache) (key value : String) :
    Cache :=
  match cl.certCacheSetError key value with
  | some _ => certCache
  | none => (key, value) :: certCache

/-- The key `recordCertInfoCacheKey` of `loadingCert`. -/
def recordCertInfoCacheKey (cloudProvider cloudName : String) : String :=
  RecordCertInfo ++ "_" ++ cloudProvider ++ "_" ++ cloudName

/-- The key `recordCertInfoCacheKey` of `loadingCustomRecordCert`. -/
def customRecordCertCacheKey : String :=
  RecordCertInfo ++ "_" ++ CustomRecords

/-- The request built from a record in both certificate passes. -/
def certReqOfRecord (v : Record) : GetRecordCertReq :=
  { CloudProvider := v.CloudProvider
    CloudName := v.CloudName
    DomainName := v.DomainName
    DomainType := v.DomainType
    FullRecord := v.FullRecord
    RecordValue := v.RecordValue
    RecordID := v.RecordID }

/-- The body of the goroutine that `loadingCert` starts for one account, run
from the record cache `cache`, the certificate cache `certCache` and the
world `w`; it gives the certificate cache and the world it leaves. -/
def loadingCertTask {CI W : Type} (cl : CertLib CI W) (cloudProvider cloudName : String)
    (cache certCache : Cache) (w : W) : Cache × W :=
  match cache.Get (recordListCacheKey cloudProvider cloudName) with
  | none => (certCache, w)
  | some rst2 =>
    match cl.unmarshalRecords rst2 with
    | .error _ => (certCache, w)
    | .ok records =>
      if records.length = 0 then (certCache, w) else
      match cl.getNewRecord records cache certCache w with
      | (newRecords, w₁) =>
        let recordCertReq := newRecords.map certReqOfRecord
        match cl.GetMultipleCertInfo recordCertReq w₁ with
        | (.error _, w₂) => (certCache, w₂)
        | (.ok recordCerts, w₂) =>
          match cl.marshalCerts recordCerts with
          | .error _ => (certCache, w₂)
          | .ok value =>
            (certCacheSet cl certCache (recordCertInfoCacheKey cloudProvider cloudName) value,
              w₂)

/-- Function `loadingCert`, for one schedule of its goroutines (the accounts
are served one after the other in the order of `tasks`). -/
def loadingCert {CI W : Type} (cl : CertLib CI W) (cache : Cache) :
    List Task → Cache → W → Cache × W
  | [], certCache, w => (certCache, w)
  | task :: rest, certCache, w =>
    match loadingCertTask cl task.1 task.2.1 cache certCache w with
    | (certCache₁, w₁) => loadingCert cl cache rest certCache₁ w₁

/-- The first loop of `loadingCustomRecordCert`: one synthetic record is
appended for every configured hostname. Fields the source does not set are
empty. -/
def customRecords {CI W : Type} (cl : CertLib CI W) :
    List String → List Record → W → List Record × W
  | [], records, w => (records, w)
  | v :: rest, records, w =>
    let domainName := (cl.publicSuffixDomain v).1
    match cl.GetID w with
    | (id, w₁) =>
      customRecords cl rest
        (records ++
          [{ CloudProvider := CustomRecords
             CloudName := CustomRecords
             DomainName := domainName
             DomainType := "public"
             RecordID := id
             RecordType := "CNAME"
             RecordName := ""
             RecordValue := v
             RecordTTL := ""
             RecordWeight := ""
             RecordStatus := "enable"
             RecordRemark := ""
             UpdateTime := ""
             FullRecord := v }]) w₁

/-- Function `loadingCustomRecordCert`. A failed `json.Marshal` leaves
`value` nil, the empty byte string. -/
def loadingCustomRecordCert {CI W : Type} (cl : CertLib CI W) (config : Configuration)
    (cache certCache : Cache) (w : W) : Cache × W :=
  if config.CustomRecords.length = 0 then (certCache, w) else
  match customRecords cl config.CustomRecords [] w with
  | (records, w₁) =>
    match cl.getNewRecord records cache certCache w₁ with
    | (newRecords, w₂) =>
      let recordCertReq := newRecords.map certReqOfRecord
      match cl.GetMultipleCertInfo recordCertReq w₂ with
      | (.error _, w₃) => (certCache, w₃)
      | (.ok recordCerts, w₃) =>
        let value :=
          match cl.marshalCerts recordCerts with
          | .ok value => value
          | .error _ => ""
        (certCacheSet cl certCache customRecordCertCacheKey value, w₃)

/-- An account with static credentials only, for evaluating examples. -/
def demoAccount : Account :=
  { CloudProvider := "aliyun", CloudName := "acct", SecretID := "id", SecretKey := "key",
    RoleArn := "", EnablePrivateDNS := true }

/-- A client configuration for evaluating examples. -/
def demoClient : Config :=
  { AccessKeyId := "id", AccessKeySecret := "key", SecurityToken := none,
    Endpoint := "dns.aliyuncs.com" }

/-- A public domain item for evaluating examples. -/
def demoDomainItem : PublicDomainItem :=
  { CreateTime := none, DomainName := some "example.com", Remark := none }

/-- A private zone item for evaluating examples. -/
def demoZoneItem : PrivateZoneItem :=
  { CreateTime := none, ZoneId := some "z1", ZoneName := some "corp.internal", Remark := none }

/-- A delegated account (non-empty `RoleArn`) with private DNS enabled, for
evaluating examples. -/
def demoRoleAccount : Account :=
  { CloudProvider := "aliyun", CloudName := "delegated", SecretID := "id", SecretKey := "key",
    RoleArn := "acs:ram::1:role/dns", EnablePrivateDNS := true }

/-- An environment for evaluating examples: the clock always reads `now`,
the security-token service always answers `response`, and the DNS endpoints
refuse. -/
def stsEnv (now : Int) (response : Except String AssumeRoleResponse) : Env Unit where
  timeNow := fun w => (now, w)
  stsAssumeRole := fun _ _ w => (response, w)
  describeDomains := fun _ _ _ w => (.error "unavailable", w)
  describeZones := fun _ _ _ w => (.error "unavailable", w)
  describeDomainRecords := fun _ _ _ _ w => (.error "unavailable", w)
  describeZoneRecords := fun _ _ _ _ w => (.error "unavailable", w)

/-- A library double that reads two timestamps: one second and one hour
after the epoch. -/
def demoTimeLib : Lib where
  timeParse := fun _ v =>
    if v = "1970-01-01T00:00:01Z" then .ok Second
    else if v = "1970-01-01T01:00:00Z" then .ok (60 * Minute)
    else .error "cannot parse"
  timeParseFormat := fun _ _ _ => .error "cannot parse"
  toLower := String.toLower
  carbonDateTime := fun _ => ""
  dnsNewClient := fun _ => none
  pvtzNewClient := fun _ => none
  stsNewClient := fun _ => none

/-- An `AssumeRole` response carrying credentials that expire at `expiration`. -/
def demoAssumeRoleResponse (expiration : String) : AssumeRoleResponse :=
  let creds : AssumeRoleCredentials :=
    { AccessKeyId := some "STS.id", AccessKeySecret := some "sts-secret",
      SecurityToken := some "token", Expiration := some expiration }
  let body : AssumeRoleBody := { Credentials := some creds }
  { Body := some body }

/-- A stored credential expiring at `expiration`, for evaluating examples. -/
def demoCredentials (expiration : Int) : STSCredentials :=
  { AccessKeyId := "STS.old", AccessKeySecret := "old-secret", SecurityToken := "old-token",
    Expiration := expiration }

/-- A vendor double for three accounts: every endpoint refuses the client
whose access key is `failing` and serves one short page to any other; the
security-token service refuses. -/
def accountsEnv (failing : String) : Env Unit where
  timeNow := fun w => (0, w)
  stsAssumeRole := fun _ _ w => (.error "refused", w)
  describeDomains := fun client _ _ w =>
    if client.AccessKeyId = failing then (.error "throttled", w)
    else (.ok { Domains := some [demoDomainItem] }, w)
  describeZones := fun client _ _ w =>
    if client.AccessKeyId = failing then (.error "throttled", w)
    else (.ok { Zones := some [demoZoneItem] }, w)
  describeDomainRecords := fun client _ _ _ w =>
    if client.AccessKeyId = failing then (.error "throttled", w)
    else (.ok { DomainRecords := some [] }, w)
  describeZoneRecords := fun client _ _ _ w =>
    if client.AccessKeyId = failing then (.error "throttled", w)
    else (.ok { Records := some [] }, w)

/-- A serializer double: the account and the name of every item, in order. -/
def demoExportLib : ExportLib where
  marshalDomains := fun domains =>
    .ok ("domains:" ++ String.join (domains.map fun d => d.CloudName ++ "/" ++ d.DomainName))
  marshalRecords := fun records =>
    .ok ("records:" ++ String.join (records.map fun r => r.CloudName ++ "/" ++ r.FullRecord))
  cacheSetError := fun _ _ => none

/-- Three Aliyun accounts with static credentials `id1`, `id2`, `id3`. -/
def demoConfiguration : Configuration :=
  { CustomRecords := []
    CloudProviders :=
      [("aliyun",
        [[("name", "acct1"), ("secretId", "id1"), ("secretKey", "k1")],
         [("name", "acct2"), ("secretId", "id2"), ("secretKey", "k2")],
         [("name", "acct3"), ("secretId", "id3"), ("secretKey", "k3")]])] }

/-- The same three accounts, the second one delegated (it has a `roleArn`). -/
def demoDelegatedConfiguration : Configuration :=
  { CustomRecords := []
    CloudProviders :=
      [("aliyun",
        [[("name", "acct1"), ("secretId", "id1"), ("secretKey", "k1")],
         [("name", "acct2"), ("secretId", "id2"), ("secretKey", "k2"),
          ("roleArn", "acs:ram::1:role/dns")],
         [("name", "acct3"), ("secretId", "id3"), ("secretKey", "k3")]])] }

/-- A cache that holds entries of an earlier pass for the second account. -/
def demoCache : Cache :=
  [("domain_list_aliyun_acct2", "old-domains"), ("record_list_aliyun_acct2", "old-records")]

/-- First account of `demoDelegatedConfiguration`, as a task of the pass. -/
def demoTask1 : Task :=
  ("aliyun", "acct1", [("name", "acct1"), ("secretId", "id1"), ("secretKey", "k1")])

/-- Second account of `demoDelegatedConfiguration`, the delegated one. -/
def demoTask2 : Task :=
  ("aliyun", "acct2",
    [("name", "acct2"), ("secretId", "id2"), ("secretKey", "k2"),
     ("roleArn", "acs:ram::1:role/dns")])

/-- Third account of `demoDelegatedConfiguration`. -/
def demoTask3 : Task :=
  ("aliyun", "acct3", [("name", "acct3"), ("secretId", "id3"), ("secretKey", "k3")])

/-- A double of the certificate collaborators over a counter of issued
ids: every record is new, a probe answers with the hostname, and
serialization succeeds or fails as `marshalOk` says. -/
def demoCertLib (marshalOk : Bool) : CertLib String Nat where
  unmarshalRecords := fun _ =>
    .ok [{ CloudProvider := "aliyun", CloudName := "acct1", DomainName := "example.com",
           DomainType := "public", RecordID := "1", RecordType := "A", RecordName := "www",
           RecordValue := "192.0.2.1", RecordTTL := "600", RecordWeight := "0",
           RecordStatus := "enable", RecordRemark := "", UpdateTime := "",
           FullRecord := "www.example.com" }]
  getNewRecord := fun records _ _ w => (records, w)
  GetMultipleCertInfo := fun reqs w => (.ok (reqs.map fun r => r.FullRecord), w)
  marshalCerts := fun certs =>
    if marshalOk then .ok ("certs:" ++ String.join certs) else .error "unsupported value"
  certCacheSetError := fun _ _ => none
  publicSuffixDomain := fun v =>
    if v = "status.example.com" then ("example.com", none) else ("", some "no suffix")
  GetID := fun n => ("id-" ++ String.mk (List.replicate n 'x'), n + 1)

/-- A serializer double for which a domain list does not serialize and a
record list does. -/
def domainFailingExportLib : ExportLib where
  marshalDomains := fun _ => .error "unsupported value"
  marshalRecords := fun records =>
    .ok ("records:" ++ String.join (records.map fun r => r.CloudName ++ "/" ++ r.FullRecord))
  cacheSetError := fun _ _ => none

/-- A serializer double for which a record list does not serialize and a
domain list does. -/
def recordFailingExportLib : ExportLib where
  marshalDomains := fun domains =>
    .ok ("domains:" ++ String.join (domains.map fun d => d.CloudName ++ "/" ++ d.DomainName))
  marshalRecords := fun _ => .error "unsupported value"
  cacheSetError := fun _ _ => none

/-- A cache that holds entries of an earlier pass for the first account. -/
def demoCache1 : Cache :=
  [("domain_list_aliyun_acct1", "old-domains"), ("record_list_aliyun_acct1", "old-records")]

/-- A certificate cache that holds entries of an earlier pass. -/
def demoCertCache : Cache :=
  [("record_cert_info_custom_records", "old-custom-certs"),
   ("record_cert_info_aliyun_acct1", "old-certs")]

/-- An environment whose clock runs on: the world is the number of readings
made so far and every reading is one minute later than the one before. The
security-token service always answers `response`; the DNS endpoints refuse. -/
def tickingEnv (response : Except String AssumeRoleResponse) : Env Nat where
  timeNow := fun n => ((n : Int) * Minute, n + 1)
  stsAssumeRole := fun _ _ n => (response, n)
  describeDomains := fun _ _ _ n => (.error "unavailable", n)
  describeZones := fun _ _ _ n => (.error "unavailable", n)
  describeDomainRecords := fun _ _ _ _ n => (.error "unavailable", n)
  describeZoneRecords := fun _ _ _ _ n => (.error "unavailable", n)

/-! ## Concurrent calls of `getValidCredentials`

Several goroutines call `getValidCredentials` on one adapter. A call moves
through the points of the method where it takes or releases
`credentialsMutex`; between two such points it runs without interference,
and a goroutine that cannot take the lock does not move. A run is the list
of the goroutines in the order in which they make their moves. -/

/-- The point a call of `getValidCredentials` has reached. -/
inductive Pc where
  /-- Not yet at `credentialsMutex.RLock()`. -/
  | start
  /-- Holds the read lock, before the first check of the stored credential. -/
  | rlocked
  /-- Released the read lock, not yet past `credentialsMutex.Lock()`. -/
  | waiting
  /-- Holds the write lock, before the second check. -/
  | wlocked
  /-- Holds the write lock, second check failed, before `a.assumeRole()`. -/
  | refreshing
  /-- Returned, with the pair it returned. -/
  | done (result : Except String (Option STSCredentials))

/-- State of the adapter and of the calls in progress: the adapter, the
world, the state of `credentialsMutex` (number of read locks held, write
lock held), the point of every goroutine, and the number of calls of
`assumeRole` made so far. -/
structure Shared (W : Type) where
  adapter : AliyunDNS
  world : W
  readers : Nat
  writer : Bool
  pcs : Nat → Pc
  exchanges : Nat

/-- The state in which no goroutine has started. -/
def Shared.initial {W : Type} (a : AliyunDNS) (w : W) : Shared W :=
  { adapter := a, world := w, readers := 0, writer := false, pcs := fun _ => Pc.start,
    exchanges := 0 }

/-- One move of goroutine `i`. -/
def stepThread {W : Type} (env : Env W) (lib : Lib) (i : Nat) (s : Shared W) : Shared W :=
  match s.pcs i with
  | .start =>
    if s.adapter.account.RoleArn = "" then
      { s with pcs := Function.update s.pcs i (.done (.ok none)) }
    else if s.writer then s
    else { s with readers := s.readers + 1, pcs := Function.update s.pcs i .rlocked }
  | .rlocked =>
    match storedCredentialsValid env s.adapter s.world with
    | (some c, w₁) =>
      { s with world := w₁, readers := s.readers - 1,
               pcs := Function.update s.pcs i (.done (.ok (some c))) }
    | (none, w₁) =>
      { s with world := w₁, readers := s.readers - 1,
               pcs := Function.update s.pcs i .waiting }
  | .waiting =>
    if s.readers = 0 ∧ s.writer = false then
      { s with writer := true, pcs := Function.update s.pcs i .wlocked }
    else s
  | .wlocked =>
    match storedCredentialsValid env s.adapter s.world with
    | (some c, w₁) =>
      { s with world := w₁, writer := false,
               pcs := Function.update s.pcs i (.done (.ok (some c))) }
    | (none, w₁) => { s with world := w₁, pcs := Function.update s.pcs i .refreshing }
  | .refreshing =>
    match refreshCredentials env lib s.adapter s.world with
    | (result, a₁, w₁) =>
      { s with adapter := a₁, world := w₁, writer := false, exchanges := s.exchanges + 1,
               pcs := Function.update s.pcs i (.done result) }
  | .done _ => s

/-- A run: the goroutines move in the order of `schedule`. -/
def runSchedule {W : Type} (env : Env W) (lib : Lib) (schedule : List Nat) (s : Shared W) :
    Shared W :=
  schedule.foldl (fun s i => stepThread env lib i s) s

/-- The run in which goroutines `0`, ..., `N - 1` make their five moves one
goroutine after the other. -/
def oneByOne (N : Nat) : List Nat :=
  ((List.range N).map fun i => [i, i, i, i, i]).flatten

/-- What holds of every state of a run in which the stored credential of
`a₀` counts as expired and the exchange yields `cNew`: the write lock is
held by at most one goroutine, a goroutine about to call `assumeRole` is the
first to do so, and whoever has returned was given `cNew`. -/
structure RefreshInv {W : Type} (a₀ : AliyunDNS) (cNew : STSCredentials) (s : Shared W) :
    Prop where
  account : s.adapter.account = a₀.account
  mutex : ∀ i j, (s.pcs i = .wlocked ∨ s.pcs i = .refreshing) →
    (s.pcs j = .wlocked ∨ s.pcs j = .refreshing) → i = j
  wflag : ∀ i, (s.pcs i = .wlocked ∨ s.pcs i = .refreshing) → s.writer = true
  fresh : ∀ i, s.pcs i = .refreshing → s.exchanges = 0
  count : s.exchanges ≤ 1
  zero : s.exchanges = 0 → s.adapter.stsCredentials = a₀.stsCredentials
  one : s.exchanges = 1 → s.adapter.stsCredentials = some cNew
  result : ∀ i r, s.pcs i = .done r → r = .ok (some cNew) ∧ s.exchanges = 1

/-! ## Theorems -/

/-- C1. For every host label and every domain name, both record converters
give a `FullRecord` equal to the domain name when the label is empty or `@`
and to label, dot, domain name otherwise; the value is a function of the
label and the domain name alone and is the same for the public and the
private converter. -/
theorem C1_fullRecord (lib₁ lib₂ : Lib) (acc₁ acc₂ : Account)
    (pub : PublicRecordItem) (priv : PrivateRecordItem)
    (d id₁ ty₁ id₂ ty₂ : String) :
    (convertPublicRecordToCommon lib₁ acc₁ pub d id₁ ty₁).FullRecord
        = (if StringValue pub.RR = "" ∨ StringValue pub.RR = "@" then d
           else StringValue pub.RR ++ "." ++ d)
    ∧ (convertPrivateRecordToCommon lib₂ acc₂ priv d id₂ ty₂).FullRecord
        = (if StringValue priv.Rr = "" ∨ StringValue priv.Rr = "@" then d
           else StringValue priv.Rr ++ "." ++ d)
    ∧ (StringValue pub.RR = StringValue priv.Rr →
        (convertPublicRecordToCommon lib₁ acc₁ pub d id₁ ty₁).FullRecord
          = (convertPrivateRecordToCommon lib₂ acc₂ priv d id₂ ty₂).FullRecord) := by
  refine ⟨?_, ?_, ?_⟩
  · simp only [convertPublicRecordToCommon, or_comm]
  · simp only [convertPrivateRecordToCommon, or_comm]
  · intro h
    simp only [convertPublicRecordToCommon, convertPrivateRecordToCommon, h]

/-! ### Pagination -/

theorem wrapInt64_of_lt (x : Int) (h0 : 0 ≤ x) (h : x < 2 ^ 63) : wrapInt64 x = x := by
  unfold wrapInt64
  omega

theorem wrapInt32_of_lt (x : Int) (h0 : 0 ≤ x) (h : x < 2 ^ 31) : wrapInt32 x = x := by
  unfold wrapInt32
  omega

theorem range_shift {β : Type} (f : Int → β) (p : Int) (k : Nat) :
    f p :: (List.range k).map (fun i => f (p + 1 + (i : Nat)))
      = (List.range (k + 1)).map (fun i => f (p + (i : Nat))) := by
  rw [List.range_succ_eq_map]
  simp only [List.map_cons, List.map_map, Nat.cast_zero, add_zero, List.cons.injEq, true_and]
  apply List.map_congr_left
  intro a _
  simp only [Function.comp, Nat.succ_eq_add_one, Nat.cast_add, Nat.cast_one]
  congr 1
  ring

theorem range_one_eq : List.range 1 = [0] := by decide

theorem publicPages_run (lib : Lib) (account : Account) (client : Config)
    (zones : List (List PrivateZoneItem)) :
    ∀ (pages : List (List PublicDomainItem)) (fuel : Nat) (p : Int) (acc : List Domain)
      (log : List Call),
      pages.findIdx (fun pg => decide (pg.length < 100)) < pages.length →
      pages.findIdx (fun pg => decide (pg.length < 100)) + 1 ≤ fuel →
      0 ≤ p →
      p + (pages.findIdx (fun pg => decide (pg.length < 100)) : Nat) < 2 ^ 63 →
      listPublicDomainsPages feedEnv.traced lib account client fuel p acc
          ({ domains := pages, zones := zones }, log)
        = some (.ok (acc ++ ((pages.take
              (pages.findIdx (fun pg => decide (pg.length < 100)) + 1)).flatten.map
                (convertPublicDomainToCommon lib account))),
            ({ domains := pages.drop (pages.findIdx (fun pg => decide (pg.length < 100)) + 1),
               zones := zones },
             log ++ (List.range (pages.findIdx (fun pg => decide (pg.length < 100)) + 1)).map
               (fun i => Call.DescribeDomains (p + (i : Nat)) 100))) := by
  intro pages
  induction pages with
  | nil => intro fuel p acc log h; simp at h
  | cons page rest ih =>
    intro fuel p acc log hlt hfuel hp hbound
    rw [List.findIdx_cons] at hlt hfuel hbound ⊢
    cases fuel with
    | zero => omega
    | succ fuel =>
      by_cases hshort : page.length < 100
      · simp only [hshort, decide_True, cond_true] at hlt hfuel hbound ⊢
        by_cases hempty : page.length = 0
        · have : page = [] := List.length_eq_zero.mp hempty
          subst this
          simp [listPublicDomainsPages, Env.traced, feedEnv, range_one_eq]
        · have h2 : ((page.length : Nat) : Int) < 100 := by exact_mod_cast hshort
          simp [listPublicDomainsPages, Env.traced, feedEnv, hempty, h2, range_one_eq]
      · simp only [hshort, decide_False, cond_false] at hlt hfuel hbound ⊢
        have hempty : page.length ≠ 0 := by omega
        have h2 : ¬ ((page.length : Nat) : Int) < 100 := by
          intro h; apply hshort; exact_mod_cast h
        have hw : wrapInt64 (p + 1) = p + 1 := by
          apply wrapInt64_of_lt <;> omega
        have hih := ih fuel (p + 1)
          (acc ++ page.map (convertPublicDomainToCommon lib account))
          (log ++ [Call.DescribeDomains p 100])
          (by simpa using hlt) (by omega) (by omega) (by push_cast at hbound ⊢; omega)
        generalize List.findIdx (fun pg => decide (pg.length < 100)) rest = k at *
        rw [← range_shift (fun x => Call.DescribeDomains x 100) p (k + 1)]
        simp only [listPublicDomainsPages, Env.traced, feedEnv, hempty, h2, if_false, hw]
        simp only [listPublicDomainsPages, Env.traced, feedEnv] at hih
        rw [hih]
        simp [List.take_succ_cons, List.drop_succ_cons, List.append_assoc]

theorem privatePages_run (lib : Lib) (account : Account) (client : Config)
    (domains : List (List PublicDomainItem)) :
    ∀ (pages : List (List PrivateZoneItem)) (fuel : Nat) (p : Int) (acc : List Domain)
      (log : List Call),
      pages.findIdx (fun pg => decide (pg.length < 100)) < pages.length →
      pages.findIdx (fun pg => decide (pg.length < 100)) + 1 ≤ fuel →
      0 ≤ p →
      p + (pages.findIdx (fun pg => decide (pg.length < 100)) : Nat) < 2 ^ 31 →
      listPrivateDomainsPages feedEnv.traced lib account client fuel p acc
          ({ domains := domains, zones := pages }, log)
        = some (.ok (acc ++ ((pages.take
              (pages.findIdx (fun pg => decide (pg.length < 100)) + 1)).flatten.map
                (convertPrivateDomainToCommon lib account))),
            ({ domains := domains,
               zones := pages.drop (pages.findIdx (fun pg => decide (pg.length < 100)) + 1) },
             log ++ (List.range (pages.findIdx (fun pg => decide (pg.length < 100)) + 1)).map
               (fun i => Call.DescribeZones (p + (i : Nat)) 100))) := by
  intro pages
  induction pages with
  | nil => intro fuel p acc log h; simp at h
  | cons page rest ih =>
    intro fuel p acc log hlt hfuel hp hbound
    rw [List.findIdx_cons] at hlt hfuel hbound ⊢
    cases fuel with
    | zero => omega
    | succ fuel =>
      by_cases hshort : page.length < 100
      · simp only [hshort, decide_True, cond_true] at hlt hfuel hbound ⊢
        by_cases hempty : page.length = 0
        · have : page = [] := List.length_eq_zero.mp hempty
          subst this
          simp [listPrivateDomainsPages, Env.traced, feedEnv, range_one_eq]
        · have h2 : ((page.length : Nat) : Int) < 100 := by exact_mod_cast hshort
          simp [listPrivateDomainsPages, Env.traced, feedEnv, hempty, h2, range_one_eq]
      · simp only [hshort, decide_False, cond_false] at hlt hfuel hbound ⊢
        have hempty : page.length ≠ 0 := by omega
        have h2 : ¬ ((page.length : Nat) : Int) < 100 := by
          intro h; apply hshort; exact_mod_cast h
        have hw : wrapInt32 (p + 1) = p + 1 := by
          apply wrapInt32_of_lt <;> omega
        have hih := ih fuel (p + 1)
          (acc ++ page.map (convertPrivateDomainToCommon lib account))
          (log ++ [Call.DescribeZones p 100])
          (by simpa using hlt) (by omega) (by omega) (by push_cast at hbound ⊢; omega)
        generalize List.findIdx (fun pg => decide (pg.length < 100)) rest = k at *
        rw [← range_shift (fun x => Call.DescribeZones x 100) p (k + 1)]
        simp only [listPrivateDomainsPages, Env.traced, feedEnv, hempty, h2, if_false, hw]
        simp only [listPrivateDomainsPages, Env.traced, feedEnv] at hih
        rw [hih]
        simp [List.take_succ_cons, List.drop_succ_cons, List.append_assoc]

/-- C2. The vendor serves a sequence of pages, one per request, to the page
loops of `listPublicDomains` and `listPrivateDomains` (page size 100), and
some page has fewer than 100 items; `k` is the 1-based index of the first
such page (`findIdx` gives `k - 1`). Provided `k` is a value of the page
counter (`int64`, resp. `int32`), the loop returns after exactly `k`
requests, with page numbers 1, 2, ..., k in that order, and returns the
converted items of pages 1..k concatenated in order. -/
theorem C2_pagination (lib : Lib) (account : Account) (client : Config)
    (pub : List (List PublicDomainItem)) (zones : List (List PrivateZoneItem)) (fuel : Nat)
    (hpub : pub.findIdx (fun pg => decide (pg.length < 100)) < pub.length)
    (hzones : zones.findIdx (fun pg => decide (pg.length < 100)) < zones.length)
    (hfuelPub : pub.findIdx (fun pg => decide (pg.length < 100)) + 1 ≤ fuel)
    (hfuelZones : zones.findIdx (fun pg => decide (pg.length < 100)) + 1 ≤ fuel)
    (h64 : pub.findIdx (fun pg => decide (pg.length < 100)) + 1 < 2 ^ 63)
    (h32 : zones.findIdx (fun pg => decide (pg.length < 100)) + 1 < 2 ^ 31) :
    listPublicDomainsPages feedEnv.traced lib account client fuel 1 []
        ({ domains := pub, zones := zones }, [])
      = some (.ok (((pub.take (pub.findIdx (fun pg => decide (pg.length < 100)) + 1)).flatten).map
            (convertPublicDomainToCommon lib account)),
          ({ domains := pub.drop (pub.findIdx (fun pg => decide (pg.length < 100)) + 1),
             zones := zones },
           (List.range (pub.findIdx (fun pg => decide (pg.length < 100)) + 1)).map
             (fun i => Call.DescribeDomains ((i : Nat) + 1) 100)))
    ∧ listPrivateDomainsPages feedEnv.traced lib account client fuel 1 []
        ({ domains := pub, zones := zones }, [])
      = some (.ok (((zones.take
            (zones.findIdx (fun pg => decide (pg.length < 100)) + 1)).flatten).map
            (convertPrivateDomainToCommon lib account)),
          ({ domains := pub,
             zones := zones.drop (zones.findIdx (fun pg => decide (pg.length < 100)) + 1) },
           (List.range (zones.findIdx (fun pg => decide (pg.length < 100)) + 1)).map
             (fun i => Call.DescribeZones ((i : Nat) + 1) 100))) := by
  constructor
  · rw [publicPages_run lib account client zones pub fuel 1 [] [] hpub hfuelPub (by omega)
      (by omega)]
    simp [add_comm]
  · rw [privatePages_run lib account client pub zones fuel 1 [] [] hzones hfuelZones (by omega)
      (by omega)]
    simp [add_comm]

/-- Witness of C2: pages of sizes 100, 100, 37 give three requests and 237
items; zone pages of sizes 100, 100, 0 give three requests and 200 items. -/
theorem C2_pagination_witness :
    (∃ items w,
      listPublicDomainsPages feedEnv.traced demoLib demoAccount demoClient 3 1 []
          ({ domains := [List.replicate 100 demoDomainItem, List.replicate 100 demoDomainItem,
                         List.replicate 37 demoDomainItem],
             zones := [List.replicate 100 demoZoneItem, List.replicate 100 demoZoneItem, []] },
           [])
        = some (.ok items,
            (w, [Call.DescribeDomains 1 100, Call.DescribeDomains 2 100,
                 Call.DescribeDomains 3 100]))
      ∧ items.length = 237)
    ∧ (∃ items w,
      listPrivateDomainsPages feedEnv.traced demoLib demoAccount demoClient 3 1 []
          ({ domains := [List.replicate 100 demoDomainItem, List.replicate 100 demoDomainItem,
                         List.replicate 37 demoDomainItem],
             zones := [List.replicate 100 demoZoneItem, List.replicate 100 demoZoneItem, []] },
           [])
        = some (.ok items,
            (w, [Call.DescribeZones 1 100, Call.DescribeZones 2 100, Call.DescribeZones 3 100]))
      ∧ items.length = 200) := by
  have h := C2_pagination demoLib demoAccount demoClient
    [List.replicate 100 demoDomainItem, List.replicate 100 demoDomainItem,
      List.replicate 37 demoDomainItem]
    [List.replicate 100 demoZoneItem, List.replicate 100 demoZoneItem, []] 3
    (by decide) (by decide) (by decide) (by decide) (by decide) (by decide)
  have hp : List.findIdx (fun pg => decide (pg.length < 100))
      [List.replicate 100 demoDomainItem, List.replicate 100 demoDomainItem,
        List.replicate 37 demoDomainItem] = 2 := by decide
  have hz : List.findIdx (fun pg => decide (pg.length < 100))
      [List.replicate 100 demoZoneItem, List.replicate 100 demoZoneItem,
        ([] : List PrivateZoneItem)] = 2 := by decide
  rw [hp, hz] at h
  refine ⟨⟨_, _, h.1, ?_⟩, ⟨_, _, h.2, ?_⟩⟩
  · simp only [List.length_map, List.take_succ_cons, List.take_zero, List.flatten_cons,
      List.flatten_nil, List.length_append, List.length_replicate, List.length_nil]
  · simp only [List.length_map, List.take_succ_cons, List.take_zero, List.flatten_cons,
      List.flatten_nil, List.length_append, List.length_replicate, List.length_nil]

/-! ### The account of an adapter never changes -/

theorem getValidCredentials_account {W : Type} (env : Env W) (lib : Lib) (a : AliyunDNS)
    (w : W) : (getValidCredentials env lib a w).2.1.account = a.account := by
  unfold getValidCredentials
  split
  · rfl
  · split
    · rfl
    · split
      · rfl
      · unfold refreshCredentials
        split <;> rfl

theorem createDNSClient_account {W : Type} (env : Env W) (lib : Lib) (a : AliyunDNS) (w : W) :
    (createDNSClient env lib a w).2.1.account = a.account := by
  have h := getValidCredentials_account env lib a w
  unfold createDNSClient
  split <;> simp_all

theorem createPVTZClient_account {W : Type} (env : Env W) (lib : Lib) (a : AliyunDNS)
    (region : String) (w : W) :
    (createPVTZClient env lib a region w).2.1.account = a.account := by
  have h := getValidCredentials_account env lib a w
  unfold createPVTZClient
  split <;> simp_all

theorem listPublicDomains_account {W : Type} (env : Env W) (lib : Lib) (fuel : Nat)
    (a : AliyunDNS) (w : W) (r : Except String (List Domain)) (a₁ : AliyunDNS) (w₁ : W)
    (h : listPublicDomains env lib fuel a w = some (r, a₁, w₁)) : a₁.account = a.account := by
  have hc := createDNSClient_account env lib a w
  unfold listPublicDomains at h
  split at h
  · simp_all
  · split at h <;> simp_all

theorem listPrivateDomains_account {W : Type} (env : Env W) (lib : Lib) (fuel : Nat)
    (a : AliyunDNS) (w : W) (r : Except String (List Domain)) (a₁ : AliyunDNS) (w₁ : W)
    (h : listPrivateDomains env lib fuel a w = some (r, a₁, w₁)) : a₁.account = a.account := by
  have hc := createPVTZClient_account env lib a "cn-hangzhou" w
  unfold listPrivateDomains at h
  split at h
  · simp_all
  · split at h <;> simp_all

theorem listPublicRecords_account {W : Type} (env : Env W) (lib : Lib) (fuel : Nat)
    (a : AliyunDNS) (w : W) (r : Except String (List Record)) (a₁ : AliyunDNS) (w₁ : W)
    (h : listPublicRecords env lib fuel a w = some (r, a₁, w₁)) : a₁.account = a.account := by
  unfold listPublicRecords at h
  split at h
  · simp at h
  · rename_i err a₂ w₂ hd
    have := listPublicDomains_account env lib fuel a w _ _ _ hd
    simp_all
  · rename_i ds a₂ w₂ hd
    have h1 := listPublicDomains_account env lib fuel a w _ _ _ hd
    have h2 := createDNSClient_account env lib a₂ w₂
    split at h
    · simp_all
    · split at h <;> simp_all

theorem listPrivateRecords_account {W : Type} (env : Env W) (lib : Lib) (fuel : Nat)
    (a : AliyunDNS) (w : W) (r : Except String (List Record)) (a₁ : AliyunDNS) (w₁ : W)
    (h : listPrivateRecords env lib fuel a w = some (r, a₁, w₁)) : a₁.account = a.account := by
  unfold listPrivateRecords at h
  split at h
  · simp at h
  · rename_i err a₂ w₂ hd
    have := listPrivateDomains_account env lib fuel a w _ _ _ hd
    simp_all
  · rename_i ds a₂ w₂ hd
    have h1 := listPrivateDomains_account env lib fuel a w _ _ _ hd
    have h2 := createPVTZClient_account env lib a₂ "cn-hangzhou" w₂
    split at h
    · simp_all
    · split at h <;> simp_all

/-! ### Partial results -/

/-- C3. `ListDomains` (and likewise `ListRecords`) first runs the public
listing and then, when private DNS is enabled for the account, runs the
private listing from the state the public listing left, whether or not the
public listing failed. Its items are those of the listings that returned no
error, public first and then private: a failed listing contributes nothing
and removes nothing. (`collected` is the item list of a successful listing
and the empty list of a failed one.) -/
theorem C3_partial_results {W : Type} (env : Env W) (lib : Lib) (fuel : Nat) (a : AliyunDNS)
    (w : W) :
    (ListDomains env lib fuel a w).map (fun r => (r.1.1, r.2))
      = (match listPublicDomains env lib fuel a w with
         | none => none
         | some (publicDomains, a₁, w₁) =>
           if a.account.EnablePrivateDNS then
             match listPrivateDomains env lib fuel a₁ w₁ with
             | none => none
             | some (privateDomains, a₂, w₂) =>
               some (collected publicDomains ++ collected privateDomains, a₂, w₂)
           else some (collected publicDomains, a₁, w₁))
    ∧ (ListRecords env lib fuel a w).map (fun r => (r.1.1, r.2))
      = (match listPublicRecords env lib fuel a w with
         | none => none
         | some (publicRecords, a₁, w₁) =>
           if a.account.EnablePrivateDNS then
             match listPrivateRecords env lib fuel a₁ w₁ with
             | none => none
             | some (privateRecords, a₂, w₂) =>
               some (collected publicRecords ++ collected privateRecords, a₂, w₂)
           else some (collected publicRecords, a₁, w₁)) := by
  constructor
  · unfold ListDomains
    cases hpub : listPublicDomains env lib fuel a w with
    | none => rfl
    | some r =>
      obtain ⟨publicDomains, a₁, w₁⟩ := r
      have hacc := listPublicDomains_account env lib fuel a w _ _ _ hpub
      simp only [hacc]
      by_cases hen : a.account.EnablePrivateDNS = true
      · simp only [hen, if_true]
        cases hpriv : listPrivateDomains env lib fuel a₁ w₁ with
        | none => rfl
        | some r₂ =>
          obtain ⟨privateDomains, a₂, w₂⟩ := r₂
          cases publicDomains <;> cases privateDomains <;> simp [collected]
      · simp only [hen]
        cases publicDomains <;> simp [collected]
  · unfold ListRecords
    cases hpub : listPublicRecords env lib fuel a w with
    | none => rfl
    | some r =>
      obtain ⟨publicRecords, a₁, w₁⟩ := r
      have hacc := listPublicRecords_account env lib fuel a w _ _ _ hpub
      simp only [hacc]
      by_cases hen : a.account.EnablePrivateDNS = true
      · simp only [hen, if_true]
        cases hpriv : listPrivateRecords env lib fuel a₁ w₁ with
        | none => rfl
        | some r₂ =>
          obtain ⟨privateRecords, a₂, w₂⟩ := r₂
          cases publicRecords <;> cases privateRecords <;> simp [collected]
      · simp only [hen]
        cases publicRecords <;> simp [collected]

/-! ### The returned error -/

/-- Counterexample to C4: a delegated account against a security-token
service that refuses the exchange. The public and the private listing both
fail, for domains and for records, and `ListDomains` and `ListRecords` still
return a nil error (with no items). -/
theorem C4_counterexample :
    (∃ e₁ a₁ w₁ e₂ a₂ w₂,
      listPublicDomains feedEnv demoLib 1 { account := demoRoleAccount }
          { domains := [], zones := [] } = some (.error e₁, a₁, w₁)
      ∧ listPrivateDomains feedEnv demoLib 1 a₁ w₁ = some (.error e₂, a₂, w₂)
      ∧ ListDomains feedEnv demoLib 1 { account := demoRoleAccount }
          { domains := [], zones := [] } = some (([], none), a₂, w₂))
    ∧ (∃ e₁ a₁ w₁ e₂ a₂ w₂,
      listPublicRecords feedEnv demoLib 1 { account := demoRoleAccount }
          { domains := [], zones := [] } = some (.error e₁, a₁, w₁)
      ∧ listPrivateRecords feedEnv demoLib 1 a₁ w₁ = some (.error e₂, a₂, w₂)
      ∧ ListRecords feedEnv demoLib 1 { account := demoRoleAccount }
          { domains := [], zones := [] } = some (([], none), a₂, w₂)) :=
  ⟨⟨_, _, _, _, _, _, rfl, rfl, rfl⟩, ⟨_, _, _, _, _, _, rfl, rfl, rfl⟩⟩

/-- C4 (amended). `ListDomains` and `ListRecords` return a nil error on
every run that returns, each on its own: when at least one attempted
visibility class succeeded and also when every attempted class failed. In
the latter case (the public listing failed, and private DNS is disabled or
the private listing failed too) the method returns the empty list with a
nil error. -/
theorem C4_error_always_nil {W : Type} (env : Env W) (lib : Lib) (fuel : Nat) (a : AliyunDNS)
    (w : W) :
    (∀ rd, ListDomains env lib fuel a w = some rd → rd.1.2 = none)
    ∧ (∀ rr, ListRecords env lib fuel a w = some rr → rr.1.2 = none)
    ∧ (∀ e₁ a₁ w₁, listPublicDomains env lib fuel a w = some (.error e₁, a₁, w₁) →
        (a.account.EnablePrivateDNS = false →
          ListDomains env lib fuel a w = some (([], none), a₁, w₁))
        ∧ (∀ e₂ a₂ w₂, a.account.EnablePrivateDNS = true →
            listPrivateDomains env lib fuel a₁ w₁ = some (.error e₂, a₂, w₂) →
            ListDomains env lib fuel a w = some (([], none), a₂, w₂)))
    ∧ (∀ e₁ a₁ w₁, listPublicRecords env lib fuel a w = some (.error e₁, a₁, w₁) →
        (a.account.EnablePrivateDNS = false →
          ListRecords env lib fuel a w = some (([], none), a₁, w₁))
        ∧ (∀ e₂ a₂ w₂, a.account.EnablePrivateDNS = true →
            listPrivateRecords env lib fuel a₁ w₁ = some (.error e₂, a₂, w₂) →
            ListRecords env lib fuel a w = some (([], none), a₂, w₂))) := by
  refine ⟨?_, ?_, ?_, ?_⟩
  · intro rd hd
    unfold ListDomains at hd
    cases hpub : listPublicDomains env lib fuel a w with
    | none => simp [hpub] at hd
    | some r =>
      obtain ⟨publicDomains, a₁, w₁⟩ := r
      simp only [hpub] at hd
      by_cases hen : a₁.account.EnablePrivateDNS = true
      · simp only [hen, if_true] at hd
        cases hpriv : listPrivateDomains env lib fuel a₁ w₁ with
        | none => simp [hpriv] at hd
        | some r₂ =>
          obtain ⟨privateDomains, a₂, w₂⟩ := r₂
          simp only [hpriv, Option.some.injEq] at hd
          rw [← hd]
      · simp only [hen, Bool.false_eq_true, if_false, Option.some.injEq] at hd
        rw [← hd]
  · intro rr hr
    unfold ListRecords at hr
    cases hpub : listPublicRecords env lib fuel a w with
    | none => simp [hpub] at hr
    | some r =>
      obtain ⟨publicRecords, a₁, w₁⟩ := r
      simp only [hpub] at hr
      by_cases hen : a₁.account.EnablePrivateDNS = true
      · simp only [hen, if_true] at hr
        cases hpriv : listPrivateRecords env lib fuel a₁ w₁ with
        | none => simp [hpriv] at hr
        | some r₂ =>
          obtain ⟨privateRecords, a₂, w₂⟩ := r₂
          simp only [hpriv, Option.some.injEq] at hr
          rw [← hr]
      · simp only [hen, Bool.false_eq_true, if_false, Option.some.injEq] at hr
        rw [← hr]
  · intro e₁ a₁ w₁ hpub
    have hacc := listPublicDomains_account env lib fuel a w _ _ _ hpub
    constructor
    · intro hen
      unfold ListDomains
      simp only [hpub, hacc, hen, Bool.false_eq_true, if_false]
    · intro e₂ a₂ w₂ hen hpriv
      unfold ListDomains
      simp only [hpub, hacc, hen, if_true, hpriv]
  · intro e₁ a₁ w₁ hpub
    have hacc := listPublicRecords_account env lib fuel a w _ _ _ hpub
    constructor
    · intro hen
      unfold ListRecords
      simp only [hpub, hacc, hen, Bool.false_eq_true, if_false]
    · intro e₂ a₂ w₂ hen hpriv
      unfold ListRecords
      simp only [hpub, hacc, hen, if_true, hpriv]

/-- Witness of C4 (amended): a static-credential account whose vendor serves
one public domain and one private zone, where both calls return with a nil
error; and the delegated account whose credential exchange is refused, where
both listings fail and `ListDomains` returns the empty list with a nil
error. -/
theorem C4_error_always_nil_witness :
    (∃ rd,
      ListDomains feedEnv demoLib 2 { account := demoAccount }
          { domains := [[demoDomainItem]], zones := [[demoZoneItem]] } = some rd
      ∧ rd.1.2 = none)
    ∧ (∃ rr,
      ListRecords feedEnv demoLib 2 { account := demoAccount }
          { domains := [[demoDomainItem]], zones := [[demoZoneItem]] } = some rr
      ∧ rr.1.2 = none)
    ∧ ∃ a₂ w₂,
      ListDomains feedEnv demoLib 1 { account := demoRoleAccount }
          { domains := [], zones := [] } = some (([], none), a₂, w₂) :=
  ⟨⟨_, rfl,
     (C4_error_always_nil feedEnv demoLib 2 { account := demoAccount }
       { domains := [[demoDomainItem]], zones := [[demoZoneItem]] }).1 _ rfl⟩,
   ⟨_, rfl,
     (C4_error_always_nil feedEnv demoLib 2 { account := demoAccount }
       { domains := [[demoDomainItem]], zones := [[demoZoneItem]] }).2.1 _ rfl⟩,
   ⟨_, _,
     ((C4_error_always_nil feedEnv demoLib 1 { account := demoRoleAccount }
       { domains := [], zones := [] }).2.2.1 _ _ _ rfl).2 _ _ _ rfl rfl⟩⟩

/-! ### Credential lifecycle -/

/-- C6. With the clock reading `now`, `IsExpired` treats a credential whose
expiration is `now + d` as expired for every `d` below five minutes and as
valid for every `d` above five minutes. -/
theorem C6_lookahead {W : Type} (env : Env W) (c : STSCredentials) (w : W) (d : Int)
    (h : c.Expiration = (env.timeNow w).1 + d) :
    (d < 5 * Minute → (c.IsExpired env w).1 = true)
    ∧ (5 * Minute < d → (c.IsExpired env w).1 = false) := by
  unfold STSCredentials.IsExpired
  cases hnow : env.timeNow w with
  | mk now w₁ =>
    simp only [hnow] at h
    simp only [h, decide_eq_true_eq, decide_eq_false_iff_not]
    constructor <;> intro hd <;> omega

/-- Witness of C6: with the clock at 0, an expiration of 4m59s is expired and
an expiration of 5m01s is valid. -/
theorem C6_lookahead_witness :
    ((demoCredentials (4 * Minute + 59 * Second)).IsExpired (stsEnv 0 (.error "")) ()).1 = true
    ∧ ((demoCredentials (5 * Minute + 1 * Second)).IsExpired (stsEnv 0 (.error "")) ()).1
        = false :=
  ⟨(C6_lookahead (stsEnv 0 (.error "")) (demoCredentials (4 * Minute + 59 * Second)) ()
      (4 * Minute + 59 * Second) (by decide)).1 (by decide),
   (C6_lookahead (stsEnv 0 (.error "")) (demoCredentials (5 * Minute + 1 * Second)) ()
      (5 * Minute + 1 * Second) (by decide)).2 (by decide)⟩

theorem storedCredentialsValid_none {W : Type} (env : Env W) (a : AliyunDNS) (w : W)
    (h : a.stsCredentials = none) : storedCredentialsValid env a w = (none, w) := by
  unfold storedCredentialsValid
  rw [h]

theorem storedCredentialsValid_some {W : Type} (env : Env W) (a : AliyunDNS) (w : W)
    (c : STSCredentials) (h : a.stsCredentials = some c) :
    storedCredentialsValid env a w
      = (if (env.timeNow w).1 ≤ c.Expiration - 5 * Minute then some c else none,
         (env.timeNow w).2) := by
  unfold storedCredentialsValid STSCredentials.IsExpired
  rw [h]
  cases hnow : env.timeNow w with
  | mk now w₁ =>
    by_cases hle : now ≤ c.Expiration - 5 * Minute
    · have : ¬ now > c.Expiration + (-5) * Minute := by omega
      simp [hle, this]
      omega
    · have : now > c.Expiration + (-5) * Minute := by omega
      simp [hle, this]
      omega

/-- Counterexample to C7: the clock reads exactly expiration minus five
minutes; the stored credential is returned and the log of vendor calls stays
empty, so no assume-role exchange took place. -/
theorem C7_counterexample :
    ((stsEnv 0 (.ok (demoAssumeRoleResponse "1970-01-01T01:00:00Z"))).timeNow ()).1
        = (demoCredentials (5 * Minute)).Expiration - 5 * Minute
    ∧ getValidCredentials (stsEnv 0 (.ok (demoAssumeRoleResponse "1970-01-01T01:00:00Z"))).traced
        demoTimeLib
        { account := demoRoleAccount, stsCredentials := some (demoCredentials (5 * Minute)) }
        ((), [])
      = (.ok (some (demoCredentials (5 * Minute))),
         { account := demoRoleAccount, stsCredentials := some (demoCredentials (5 * Minute)) },
         ((), [])) :=
  ⟨by decide, rfl⟩

/-- The method `getValidCredentials` for a delegated account, by the stored
credential and the two readings of the clock. -/
theorem getValidCredentials_delegated {W : Type} (env : Env W) (lib : Lib) (a : AliyunDNS)
    (w : W) (hrole : a.account.RoleArn ≠ "") :
    getValidCredentials env lib a w
      = (match a.stsCredentials with
         | none => refreshCredentials env lib a w
         | some c =>
           if (env.timeNow w).1 ≤ c.Expiration - 5 * Minute then
             (.ok (some c), a, (env.timeNow w).2)
           else if (env.timeNow (env.timeNow w).2).1 ≤ c.Expiration - 5 * Minute then
             (.ok (some c), a, (env.timeNow (env.timeNow w).2).2)
           else refreshCredentials env lib a (env.timeNow (env.timeNow w).2).2) := by
  unfold getValidCredentials
  cases hst : a.stsCredentials with
  | none => simp [hrole, storedCredentialsValid_none env a _ hst]
  | some c =>
    simp only [hrole, if_false, storedCredentialsValid_some env a _ c hst]
    by_cases h1 : (env.timeNow w).1 ≤ c.Expiration - 5 * Minute
    · simp [h1]
    · by_cases h2 : (env.timeNow (env.timeNow w).2).1 ≤ c.Expiration - 5 * Minute
      · simp [h1, h2]
      · simp [h1, h2]

/-- C7 (amended). For a delegated account that holds a stored credential,
`getValidCredentials` returns the stored credential, with nothing but the
clock consulted, when now <= expiration - 5 minutes at its first reading of
the clock or, failing that, at its second reading (so also when now equals
expiration - 5 minutes); when now > expiration - 5 minutes at both readings,
and when no credential is stored, it runs the refresh, which is one call of
`assumeRole`. -/
theorem C7_fast_path {W : Type} (env : Env W) (lib : Lib) (a : AliyunDNS) (w : W)
    (hrole : a.account.RoleArn ≠ "") :
    (∀ c, a.stsCredentials = some c →
      ((env.timeNow w).1 ≤ c.Expiration - 5 * Minute →
        getValidCredentials env lib a w = (.ok (some c), a, (env.timeNow w).2))
      ∧ (¬ (env.timeNow w).1 ≤ c.Expiration - 5 * Minute →
          (env.timeNow (env.timeNow w).2).1 ≤ c.Expiration - 5 * Minute →
        getValidCredentials env lib a w
          = (.ok (some c), a, (env.timeNow (env.timeNow w).2).2))
      ∧ (¬ (env.timeNow w).1 ≤ c.Expiration - 5 * Minute →
          ¬ (env.timeNow (env.timeNow w).2).1 ≤ c.Expiration - 5 * Minute →
        getValidCredentials env lib a w
          = refreshCredentials env lib a (env.timeNow (env.timeNow w).2).2))
    ∧ (a.stsCredentials = none →
        getValidCredentials env lib a w = refreshCredentials env lib a w) := by
  rw [getValidCredentials_delegated env lib a w hrole]
  constructor
  · intro c hc
    rw [hc]
    refine ⟨?_, ?_, ?_⟩
    · intro h1
      simp [h1]
    · intro h1 h2
      simp [h1, h2]
    · intro h1 h2
      simp [h1, h2]
  · intro hnone
    rw [hnone]

/-- Witness of C7 (amended): with the clock at 0 and a stored credential
expiring at 5m01s the stored credential is returned and no vendor call is
logged. -/
theorem C7_fast_path_witness :
    demoRoleAccount.RoleArn ≠ ""
    ∧ getValidCredentials (stsEnv 0 (.error "refused")).traced demoTimeLib
        { account := demoRoleAccount,
          stsCredentials := some (demoCredentials (5 * Minute + 1 * Second)) } ((), [])
      = (.ok (some (demoCredentials (5 * Minute + 1 * Second))),
         { account := demoRoleAccount,
           stsCredentials := some (demoCredentials (5 * Minute + 1 * Second)) },
         ((), [])) :=
  ⟨by decide,
   ((C7_fast_path (stsEnv 0 (.error "refused")).traced demoTimeLib
      { account := demoRoleAccount,
        stsCredentials := some (demoCredentials (5 * Minute + 1 * Second)) } ((), [])
      (by decide)).1 (demoCredentials (5 * Minute + 1 * Second)) rfl).1 (by decide)⟩

theorem refreshCredentials_ok {W : Type} (env : Env W) (lib : Lib) (a : AliyunDNS) (w : W)
    (c : STSCredentials) (h : (refreshCredentials env lib a w).1 = .ok (some c)) :
    (assumeRole env lib a w).1 = .ok c := by
  unfold refreshCredentials at h
  cases har : assumeRole env lib a w with
  | mk r w₁ =>
    cases r with
    | error e => simp [har] at h
    | ok nc =>
      simp only [har, Except.ok.injEq, Option.some.injEq] at h
      rw [h]

/-- Counterexample to C8: the clock reads ten minutes, nothing is stored, and
the security-token service reports an expiration of one second. The
credential is returned although now > expiration - 5 minutes. -/
theorem C8_counterexample :
    ∃ c,
      (getValidCredentials (stsEnv (10 * Minute)
          (.ok (demoAssumeRoleResponse "1970-01-01T00:00:01Z"))) demoTimeLib
          { account := demoRoleAccount } ()).1 = .ok (some c)
      ∧ ((stsEnv (10 * Minute)
          (.ok (demoAssumeRoleResponse "1970-01-01T00:00:01Z"))).timeNow ()).1 = 10 * Minute
      ∧ ¬ (10 * Minute ≤ c.Expiration - 5 * Minute) :=
  ⟨_, rfl, rfl, by decide⟩

/-- C8 (amended). Every credential that `getValidCredentials` returns is
either the stored credential, and then now <= expiration - 5 minutes held at
the reading of the clock that admitted it, or the credential that
`assumeRole` just produced, returned with the expiration the service
reported. -/
theorem C8_returned_credential {W : Type} (env : Env W) (lib : Lib) (a : AliyunDNS) (w : W)
    (c : STSCredentials) (hret : (getValidCredentials env lib a w).1 = .ok (some c)) :
    (a.stsCredentials = some c
      ∧ ((env.timeNow w).1 ≤ c.Expiration - 5 * Minute
          ∨ (env.timeNow (env.timeNow w).2).1 ≤ c.Expiration - 5 * Minute))
    ∨ (∃ w₂, (assumeRole env lib a w₂).1 = .ok c) := by
  by_cases hrole : a.account.RoleArn = ""
  · simp [getValidCredentials, hrole] at hret
  · rw [getValidCredentials_delegated env lib a w hrole] at hret
    cases hst : a.stsCredentials with
    | none =>
      rw [hst] at hret
      right
      refine ⟨w, ?_⟩
      exact refreshCredentials_ok env lib a w c hret
    | some c₀ =>
      rw [hst] at hret
      simp only at hret
      by_cases hA : (env.timeNow w).1 ≤ c₀.Expiration - 5 * Minute
      · simp only [hA, if_true, Except.ok.injEq, Option.some.injEq] at hret
        subst hret
        exact Or.inl ⟨rfl, Or.inl hA⟩
      · by_cases hB : (env.timeNow (env.timeNow w).2).1 ≤ c₀.Expiration - 5 * Minute
        · simp only [hA, hB, if_true, if_false, Except.ok.injEq, Option.some.injEq] at hret
          subst hret
          exact Or.inl ⟨rfl, Or.inr hB⟩
        · simp only [hA, hB, if_false] at hret
          right
          exact ⟨(env.timeNow (env.timeNow w).2).2, refreshCredentials_ok env lib a _ c hret⟩

/-- Witness of C8 (amended): the stored credential of the clock-at-0 example
is returned, and it is the stored one within its lookahead. -/
theorem C8_returned_credential_witness :
    (getValidCredentials (stsEnv 0 (.error "refused")) demoTimeLib
        { account := demoRoleAccount, stsCredentials := some (demoCredentials (6 * Minute)) }
        ()).1 = .ok (some (demoCredentials (6 * Minute)))
    ∧ ((some (demoCredentials (6 * Minute)) = some (demoCredentials (6 * Minute))
        ∧ (((stsEnv 0 (.error "refused")).timeNow ()).1
              ≤ (demoCredentials (6 * Minute)).Expiration - 5 * Minute
            ∨ ((stsEnv 0 (.error "refused")).timeNow
                ((stsEnv 0 (.error "refused")).timeNow ()).2).1
              ≤ (demoCredentials (6 * Minute)).Expiration - 5 * Minute))
      ∨ (∃ w₂, (assumeRole (stsEnv 0 (.error "refused")) demoTimeLib
          { account := demoRoleAccount,
            stsCredentials := some (demoCredentials (6 * Minute)) } w₂).1
            = .ok (demoCredentials (6 * Minute)))) :=
  ⟨rfl, C8_returned_credential (stsEnv 0 (.error "refused")) demoTimeLib
    { account := demoRoleAccount, stsCredentials := some (demoCredentials (6 * Minute)) } ()
    (demoCredentials (6 * Minute)) rfl⟩

/-- C9. For an account whose `RoleArn` is empty, `getValidCredentials`
returns no credential and no error and leaves the adapter (the stored
credential included) and the world as they were, so that no assume-role
exchange takes place, whatever the clock reads and whatever is stored;
`createDNSClient` and `createPVTZClient` then build the client from the
account's static `SecretID` and `SecretKey`, with no security token. -/
theorem C9_static_account {W : Type} (env : Env W) (lib : Lib) (a : AliyunDNS) (w : W)
    (region : String) (hrole : a.account.RoleArn = "") :
    getValidCredentials env lib a w = (.ok none, a, w)
    ∧ createDNSClient env lib a w
        = (NewAliyunClient lib a.account.SecretID a.account.SecretKey, a, w)
    ∧ createPVTZClient env lib a region w
        = (NewAliyunPVTZClient lib a.account.SecretID a.account.SecretKey region, a, w)
    ∧ (∀ client, (createDNSClient env lib a w).1 = .ok client →
        client.AccessKeyId = a.account.SecretID ∧ client.AccessKeySecret = a.account.SecretKey
          ∧ client.SecurityToken = none)
    ∧ (∀ client, (createPVTZClient env lib a region w).1 = .ok client →
        client.AccessKeyId = a.account.SecretID ∧ client.AccessKeySecret = a.account.SecretKey
          ∧ client.SecurityToken = none) := by
  have hg : getValidCredentials env lib a w = (.ok none, a, w) := by
    unfold getValidCredentials
    simp [hrole]
  have hd : createDNSClient env lib a w
      = (NewAliyunClient lib a.account.SecretID a.account.SecretKey, a, w) := by
    unfold createDNSClient
    rw [hg]
  have hp : createPVTZClient env lib a region w
      = (NewAliyunPVTZClient lib a.account.SecretID a.account.SecretKey region, a, w) := by
    unfold createPVTZClient
    rw [hg]
  refine ⟨hg, hd, hp, ?_, ?_⟩
  · intro client hc
    rw [hd] at hc
    simp only [NewAliyunClient] at hc
    split at hc
    · simp at hc
    · simp only [Except.ok.injEq] at hc
      subst hc
      exact ⟨rfl, rfl, rfl⟩
  · intro client hc
    rw [hp] at hc
    simp only [NewAliyunPVTZClient] at hc
    split at hc
    · simp at hc
    · simp only [Except.ok.injEq] at hc
      subst hc
      exact ⟨rfl, rfl, rfl⟩

/-- Witness of C9: the static account, with a stale credential stored and a
security-token service that would answer; the log of vendor calls stays
empty and the public client carries the static secret. -/
theorem C9_static_account_witness :
    demoAccount.RoleArn = ""
    ∧ getValidCredentials (stsEnv (10 * Minute)
          (.ok (demoAssumeRoleResponse "1970-01-01T01:00:00Z"))).traced demoTimeLib
        { account := demoAccount, stsCredentials := some (demoCredentials 0) } ((), [])
      = (.ok none, { account := demoAccount, stsCredentials := some (demoCredentials 0) },
         ((), []))
    ∧ createDNSClient (stsEnv (10 * Minute)
          (.ok (demoAssumeRoleResponse "1970-01-01T01:00:00Z"))).traced demoTimeLib
        { account := demoAccount, stsCredentials := some (demoCredentials 0) } ((), [])
      = (NewAliyunClient demoTimeLib "id" "key",
         { account := demoAccount, stsCredentials := some (demoCredentials 0) }, ((), [])) :=
  ⟨by decide,
   (C9_static_account (stsEnv (10 * Minute)
      (.ok (demoAssumeRoleResponse "1970-01-01T01:00:00Z"))).traced demoTimeLib
      { account := demoAccount, stsCredentials := some (demoCredentials 0) } ((), [])
      "cn-hangzhou" (by decide)).1,
   (C9_static_account (stsEnv (10 * Minute)
      (.ok (demoAssumeRoleResponse "1970-01-01T01:00:00Z"))).traced demoTimeLib
      { account := demoAccount, stsCredentials := some (demoCredentials 0) } ((), [])
      "cn-hangzhou" (by decide)).2.1⟩

theorem traced_timeNow {W : Type} (env : Env W) (w : W) (log : List Call) :
    env.traced.timeNow (w, log) = ((env.timeNow w).1, ((env.timeNow w).2, log)) := rfl

theorem traced_stsAssumeRole {W : Type} (env : Env W) (c : Config) (req : AssumeRoleRequest)
    (w : W) (log : List Call) :
    env.traced.stsAssumeRole c req (w, log)
      = ((env.stsAssumeRole c req w).1,
         ((env.stsAssumeRole c req w).2, log ++ [Call.AssumeRole req])) := rfl

theorem storedCredentialsValid_traced {W : Type} (env : Env W) (a : AliyunDNS) (w : W)
    (log : List Call) :
    storedCredentialsValid env.traced a (w, log)
      = ((storedCredentialsValid env a w).1, ((storedCredentialsValid env a w).2, log)) := by
  cases hst : a.stsCredentials with
  | none =>
    rw [storedCredentialsValid_none _ a _ hst, storedCredentialsValid_none _ a _ hst]
  | some c =>
    rw [storedCredentialsValid_some _ a _ c hst, storedCredentialsValid_some _ a _ c hst,
      traced_timeNow]

theorem assumeRole_traced {W : Type} (env : Env W) (lib : Lib) (a : AliyunDNS) (w : W)
    (log : List Call) (hrole : a.account.RoleArn ≠ "") :
    assumeRole env.traced lib a (w, log)
      = ((assumeRole env lib a w).1, ((assumeRole env lib a w).2,
          match lib.stsNewClient (stsConfig a.account) with
          | some _ => log
          | none => log ++ [Call.AssumeRole (stsRequest a.account)])) := by
  unfold assumeRole
  rw [if_neg hrole, if_neg hrole]
  cases lib.stsNewClient (stsConfig a.account) with
  | some err => rfl
  | none =>
    simp only [traced_stsAssumeRole]
    generalize env.stsAssumeRole (stsConfig a.account) (stsRequest a.account) w = res
    obtain ⟨r, w₁⟩ := res
    cases r with
    | error e => rfl
    | ok response =>
      obtain ⟨body⟩ := response
      cases body with
      | none => rfl
      | some body =>
        obtain ⟨creds⟩ := body
        cases creds with
        | none => rfl
        | some creds =>
          cases hp : lib.timeParse RFC3339 (StringValue creds.Expiration) with
          | error e => simp only [hp]
          | ok t => simp only [hp]

/-- C10. A refresh is needed when both checks of the stored credential fail.
Then `getValidCredentials` calls `assumeRole` once, from the state the
second check left. When that call fails, its error is returned with no
credential and the adapter, the stored credential with it, is unchanged;
when it succeeds, the new credential is stored and the same credential is
returned. The log of vendor calls gains one `AssumeRole` request, and none
when the security-token client could not be built. -/
theorem C10_refresh {W : Type} (env : Env W) (lib : Lib) (a : AliyunDNS) (w : W)
    (log : List Call) (hrole : a.account.RoleArn ≠ "")
    (h1 : (storedCredentialsValid env a w).1 = none)
    (h2 : (storedCredentialsValid env a (storedCredentialsValid env a w).2).1 = none) :
    (∀ err w₃,
      assumeRole env lib a (storedCredentialsValid env a (storedCredentialsValid env a w).2).2
          = (.error err, w₃) →
        getValidCredentials env lib a w = (.error err, a, w₃))
    ∧ (∀ newCreds w₃,
      assumeRole env lib a (storedCredentialsValid env a (storedCredentialsValid env a w).2).2
          = (.ok newCreds, w₃) →
        getValidCredentials env lib a w
          = (.ok (some newCreds), { a with stsCredentials := some newCreds }, w₃))
    ∧ (getValidCredentials env.traced lib a (w, log)).2.2.2
        = (match lib.stsNewClient (stsConfig a.account) with
           | some _ => log
           | none => log ++ [Call.AssumeRole (stsRequest a.account)]) := by
  have e1 : storedCredentialsValid env a w = (none, (storedCredentialsValid env a w).2) := by
    rw [← h1]
  have e2 : storedCredentialsValid env a (storedCredentialsValid env a w).2
      = (none, (storedCredentialsValid env a (storedCredentialsValid env a w).2).2) := by
    rw [← h2]
  have hg : ∀ {V : Type} (env₁ : Env V) (v v₁ v₂ : V),
      storedCredentialsValid env₁ a v = (none, v₁) →
      storedCredentialsValid env₁ a v₁ = (none, v₂) →
      getValidCredentials env₁ lib a v = refreshCredentials env₁ lib a v₂ := by
    intro V env₁ v v₁ v₂ hv1 hv2
    unfold getValidCredentials
    rw [if_neg hrole, hv1]
    simp only [hv2]
  refine ⟨?_, ?_, ?_⟩
  · intro err w₃ har
    rw [hg env w _ _ e1 e2]
    unfold refreshCredentials
    rw [har]
  · intro newCreds w₃ har
    rw [hg env w _ _ e1 e2]
    unfold refreshCredentials
    rw [har]
  · have t1 : storedCredentialsValid env.traced a (w, log)
        = (none, ((storedCredentialsValid env a w).2, log)) := by
      rw [storedCredentialsValid_traced, h1]
    have t2 : storedCredentialsValid env.traced a ((storedCredentialsValid env a w).2, log)
        = (none, ((storedCredentialsValid env a (storedCredentialsValid env a w).2).2, log)) := by
      rw [storedCredentialsValid_traced, h2]
    rw [hg env.traced _ _ _ t1 t2]
    unfold refreshCredentials
    rw [assumeRole_traced env lib a _ log hrole]
    cases (assumeRole env lib a
      (storedCredentialsValid env a (storedCredentialsValid env a w).2).2).1 <;> rfl

/-- Witness of C10: the stored credential has expired and the
security-token service refuses. The error of `assumeRole` is returned, the
stored credential stays, and exactly one `AssumeRole` request is logged. -/
theorem C10_refresh_witness :
    demoRoleAccount.RoleArn ≠ ""
    ∧ getValidCredentials (stsEnv (10 * Minute) (.error "refused")) demoTimeLib
        { account := demoRoleAccount, stsCredentials := some (demoCredentials 0) } ()
      = (.error "AssumeRole 失败: refused",
         { account := demoRoleAccount, stsCredentials := some (demoCredentials 0) }, ())
    ∧ (getValidCredentials (stsEnv (10 * Minute) (.error "refused")).traced demoTimeLib
        { account := demoRoleAccount, stsCredentials := some (demoCredentials 0) }
        ((), [])).2.2.2 = [Call.AssumeRole (stsRequest demoRoleAccount)] :=
  ⟨by decide,
   (C10_refresh (stsEnv (10 * Minute) (.error "refused")) demoTimeLib
      { account := demoRoleAccount, stsCredentials := some (demoCredentials 0) } () []
      (by decide) (by decide) (by decide)).1 "AssumeRole 失败: refused" () rfl,
   (C10_refresh (stsEnv (10 * Minute) (.error "refused")) demoTimeLib
      { account := demoRoleAccount, stsCredentials := some (demoCredentials 0) } () []
      (by decide) (by decide) (by decide)).2.2⟩

/-! ### The collection pass -/

theorem cacheSet_get_other (xl : ExportLib) (cache : Cache) (key value other : String)
    (h : other ≠ key) : Cache.Get (cacheSet xl cache key value) other = Cache.Get cache other := by
  unfold cacheSet
  cases xl.cacheSetError key value with
  | some e => rfl
  | none =>
    have hb : (other == key) = false := by simpa using h
    simp [Cache.Get, List.lookup, hb]

theorem cacheSet_get_same (xl : ExportLib) (cache : Cache) (key value : String)
    (h : xl.cacheSetError key value = none) :
    Cache.Get (cacheSet xl cache key value) key = some value := by
  unfold cacheSet
  rw [h]
  simp [Cache.Get, List.lookup]

theorem domainKey_ne_recordKey (cp₁ n₁ cp₂ n₂ : String) :
    domainListCacheKey cp₁ n₁ ≠ recordListCacheKey cp₂ n₂ := by
  intro h
  have h2 := congrArg (fun s => s.data.head?) h
  simp [domainListCacheKey, recordListCacheKey, DomainList, RecordList, String.data_append]
    at h2

theorem loadingTask_frame {P W : Type} (F : Factory P W) (xl : ExportLib)
    (cp name : String) (account : AccountAttrs) (cache cache₁ : Cache) (w w₁ : W)
    (h : loadingTask F xl cp name account cache w = some (cache₁, w₁)) (key : String)
    (hd : key ≠ domainListCacheKey cp name) (hr : key ≠ recordListCacheKey cp name) :
    Cache.Get cache₁ key = Cache.Get cache key := by
  unfold loadingTask at h
  cases hc : F.Create cp account w with
  | mk r w₂ =>
    cases r with
    | error e =>
      simp only [hc, Option.some.injEq, Prod.mk.injEq] at h
      rw [← h.1]
    | ok p =>
      simp only [hc] at h
      cases hl : F.ListDomains p w₂ with
      | none => simp [hl] at h
      | some res =>
        obtain ⟨⟨ds, e⟩, p₃, w₃⟩ := res
        cases e with
        | some e =>
          simp only [hl, Option.some.injEq, Prod.mk.injEq] at h
          rw [← h.1]
        | none =>
          simp only [hl] at h
          cases hlr : F.ListRecords p₃ w₃ with
          | none => simp [hlr] at h
          | some res₂ =>
            obtain ⟨⟨rs, e₂⟩, p₄, w₄⟩ := res₂
            cases e₂ with
            | some e₂ =>
              simp only [hlr, Option.some.injEq, Prod.mk.injEq] at h
              rw [← h.1, cacheSet_get_other _ _ _ _ _ hd]
            | none =>
              simp only [hlr] at h
              cases hm : xl.marshalRecords rs with
              | error e₃ =>
                simp only [hm, Option.some.injEq, Prod.mk.injEq] at h
                rw [← h.1, cacheSet_get_other _ _ _ _ _ hd]
              | ok v =>
                simp only [hm, Option.some.injEq, Prod.mk.injEq] at h
                rw [← h.1, cacheSet_get_other _ _ _ _ _ hr, cacheSet_get_other _ _ _ _ _ hd]

theorem loading_frame {P W : Type} (F : Factory P W) (xl : ExportLib) (key : String) :
    ∀ (tasks : List Task) (cache cache₁ : Cache) (w w₁ : W),
      loading F xl tasks cache w = some (cache₁, w₁) →
      (∀ u ∈ tasks, key ≠ domainListCacheKey u.1 u.2.1 ∧ key ≠ recordListCacheKey u.1 u.2.1) →
      Cache.Get cache₁ key = Cache.Get cache key := by
  intro tasks
  induction tasks with
  | nil =>
    intro cache cache₁ w w₁ h _
    simp only [loading, Option.some.injEq, Prod.mk.injEq] at h
    rw [← h.1]
  | cons t rest ih =>
    intro cache cache₁ w w₁ h hk
    simp only [loading] at h
    cases ht : loadingTask F xl t.1 t.2.1 t.2.2 cache w with
    | none => simp [ht] at h
    | some res =>
      obtain ⟨c₂, w₂⟩ := res
      simp only [ht] at h
      have hrest := ih c₂ cache₁ w₂ w₁ h (fun u hu => hk u (List.mem_cons_of_mem _ hu))
      have hthis := hk t (List.mem_cons_self _ _)
      rw [hrest, loadingTask_frame F xl _ _ _ _ _ _ _ ht key hthis.1 hthis.2]

theorem loading_append {P W : Type} (F : Factory P W) (xl : ExportLib) :
    ∀ (pre : List Task) (t : Task) (post : List Task) (cache cacheF : Cache) (w wF : W),
      loading F xl (pre ++ t :: post) cache w = some (cacheF, wF) →
      ∃ cache₁ w₁ cache₂ w₂,
        loading F xl pre cache w = some (cache₁, w₁)
        ∧ loadingTask F xl t.1 t.2.1 t.2.2 cache₁ w₁ = some (cache₂, w₂)
        ∧ loading F xl post cache₂ w₂ = some (cacheF, wF) := by
  intro pre
  induction pre with
  | nil =>
    intro t post cache cacheF w wF h
    simp only [List.nil_append, loading] at h
    cases ht : loadingTask F xl t.1 t.2.1 t.2.2 cache w with
    | none => simp [ht] at h
    | some res =>
      obtain ⟨c₂, w₂⟩ := res
      simp only [ht] at h
      exact ⟨cache, w, c₂, w₂, rfl, ht, h⟩
  | cons u pre ih =>
    intro t post cache cacheF w wF h
    simp only [List.cons_append, loading] at h
    cases hu : loadingTask F xl u.1 u.2.1 u.2.2 cache w with
    | none => simp [hu] at h
    | some res =>
      obtain ⟨c₀, w₀⟩ := res
      simp only [hu] at h
      obtain ⟨c₁, w₁, c₂, w₂, h1, h2, h3⟩ := ih t post c₀ cacheF w₀ wF h
      refine ⟨c₁, w₁, c₂, w₂, ?_, h2, h3⟩
      simp only [loading, hu]
      exact h1

/-- Counterexample to C5: three accounts, the vendor refuses every call of
the second one. Its public listing fails, `ListDomains` and `ListRecords`
report no error, and the pass replaces the entries the cache held for that
account by the serialization of empty results. -/
theorem C5_counterexample :
    (∃ e a₁,
      listPublicDomains (accountsEnv "id2") demoLib 5
        { account := accountOfAttrs "aliyun"
            [("name", "acct2"), ("secretId", "id2"), ("secretKey", "k2")] } ()
        = some (.error e, a₁, ()))
    ∧ ∃ cacheF,
      loading (aliyunFactory (accountsEnv "id2") demoLib 5) demoExportLib
          (tasksOf demoConfiguration) demoCache () = some (cacheF, ())
      ∧ Cache.Get demoCache (domainListCacheKey "aliyun" "acct2") = some "old-domains"
      ∧ Cache.Get cacheF (domainListCacheKey "aliyun" "acct2") = some "domains:"
      ∧ Cache.Get demoCache (recordListCacheKey "aliyun" "acct2") = some "old-records"
      ∧ Cache.Get cacheF (recordListCacheKey "aliyun" "acct2") = some "records:" :=
  ⟨⟨_, _, rfl⟩, _, rfl, by decide, by decide, by decide, by decide⟩

/-- C5 (amended). One pass over any accounts, `t` any one of them, no other
account of the pass using the cache keys of `t`. The pass reaches `t` from
some cache and world, and:
* when provider creation fails for `t`, or its `ListDomains` call returns
  an error, the `domain_list` and `record_list` entries of `t` after the
  pass are exactly those before the pass;
* when `ListDomains` succeeds and `ListRecords` returns an error, the
  `record_list` entry of `t` is the one before the pass;
* when both calls succeed, both serializations succeed and the cache
  accepts them, both entries of `t` hold the serialization of the results
  of its own calls. -/
theorem C5_isolation {P W : Type} (F : Factory P W) (xl : ExportLib)
    (pre post : List Task) (t : Task) (cache cacheF : Cache) (w wF : W)
    (hrun : loading F xl (pre ++ t :: post) cache w = some (cacheF, wF))
    (hkeys : ∀ u ∈ pre ++ post,
      domainListCacheKey u.1 u.2.1 ≠ domainListCacheKey t.1 t.2.1
      ∧ recordListCacheKey u.1 u.2.1 ≠ recordListCacheKey t.1 t.2.1) :
    ∃ cache₁ w₁,
      loading F xl pre cache w = some (cache₁, w₁)
      ∧ (∀ err w₂, F.Create t.1 t.2.2 w₁ = (.error err, w₂) →
          Cache.Get cacheF (domainListCacheKey t.1 t.2.1)
              = Cache.Get cache (domainListCacheKey t.1 t.2.1)
          ∧ Cache.Get cacheF (recordListCacheKey t.1 t.2.1)
              = Cache.Get cache (recordListCacheKey t.1 t.2.1))
      ∧ (∀ p w₂ domains err p₃ w₃, F.Create t.1 t.2.2 w₁ = (.ok p, w₂) →
          F.ListDomains p w₂ = some ((domains, some err), p₃, w₃) →
          Cache.Get cacheF (domainListCacheKey t.1 t.2.1)
              = Cache.Get cache (domainListCacheKey t.1 t.2.1)
          ∧ Cache.Get cacheF (recordListCacheKey t.1 t.2.1)
              = Cache.Get cache (recordListCacheKey t.1 t.2.1))
      ∧ (∀ p w₂ domains p₃ w₃ records err p₄ w₄, F.Create t.1 t.2.2 w₁ = (.ok p, w₂) →
          F.ListDomains p w₂ = some ((domains, none), p₃, w₃) →
          F.ListRecords p₃ w₃ = some ((records, some err), p₄, w₄) →
          Cache.Get cacheF (recordListCacheKey t.1 t.2.1)
              = Cache.Get cache (recordListCacheKey t.1 t.2.1))
      ∧ (∀ p w₂ domains p₃ w₃ records p₄ w₄ vd vr, F.Create t.1 t.2.2 w₁ = (.ok p, w₂) →
          F.ListDomains p w₂ = some ((domains, none), p₃, w₃) →
          F.ListRecords p₃ w₃ = some ((records, none), p₄, w₄) →
          xl.marshalDomains domains = .ok vd → xl.marshalRecords records = .ok vr →
          xl.cacheSetError (domainListCacheKey t.1 t.2.1) vd = none →
          xl.cacheSetError (recordListCacheKey t.1 t.2.1) vr = none →
          Cache.Get cacheF (domainListCacheKey t.1 t.2.1) = some vd
          ∧ Cache.Get cacheF (recordListCacheKey t.1 t.2.1) = some vr) := by
  obtain ⟨c₁, w₁, c₂, w₂, hpre, htask, hpost⟩ :=
    loading_append F xl pre t post cache cacheF w wF hrun
  have hne := domainKey_ne_recordKey
  have hpostD : Cache.Get cacheF (domainListCacheKey t.1 t.2.1)
      = Cache.Get c₂ (domainListCacheKey t.1 t.2.1) :=
    loading_frame F xl _ post c₂ cacheF w₂ wF hpost (fun u hu =>
      ⟨fun h => (hkeys u (List.mem_append_right _ hu)).1 h.symm, hne _ _ _ _⟩)
  have hpostR : Cache.Get cacheF (recordListCacheKey t.1 t.2.1)
      = Cache.Get c₂ (recordListCacheKey t.1 t.2.1) :=
    loading_frame F xl _ post c₂ cacheF w₂ wF hpost (fun u hu =>
      ⟨fun h => hne _ _ _ _ h.symm, fun h => (hkeys u (List.mem_append_right _ hu)).2 h.symm⟩)
  have hpreD : Cache.Get c₁ (domainListCacheKey t.1 t.2.1)
      = Cache.Get cache (domainListCacheKey t.1 t.2.1) :=
    loading_frame F xl _ pre cache c₁ w w₁ hpre (fun u hu =>
      ⟨fun h => (hkeys u (List.mem_append_left _ hu)).1 h.symm, hne _ _ _ _⟩)
  have hpreR : Cache.Get c₁ (recordListCacheKey t.1 t.2.1)
      = Cache.Get cache (recordListCacheKey t.1 t.2.1) :=
    loading_frame F xl _ pre cache c₁ w w₁ hpre (fun u hu =>
      ⟨fun h => hne _ _ _ _ h.symm, fun h => (hkeys u (List.mem_append_left _ hu)).2 h.symm⟩)
  refine ⟨c₁, w₁, hpre, ?_, ?_, ?_, ?_⟩
  · intro err w₃ hc
    unfold loadingTask at htask
    simp only [hc, Option.some.injEq, Prod.mk.injEq] at htask
    rw [hpostD, hpostR, ← htask.1, hpreD, hpreR]
    exact ⟨rfl, rfl⟩
  · intro p w₃ domains err p₃ w₄ hc hl
    unfold loadingTask at htask
    simp only [hc, hl, Option.some.injEq, Prod.mk.injEq] at htask
    rw [hpostD, hpostR, ← htask.1, hpreD, hpreR]
    exact ⟨rfl, rfl⟩
  · intro p w₃ domains p₃ w₄ records err p₄ w₅ hc hl hlr
    unfold loadingTask at htask
    simp only [hc, hl, hlr, Option.some.injEq, Prod.mk.injEq] at htask
    rw [hpostR, ← htask.1, cacheSet_get_other _ _ _ _ _ (fun h => hne _ _ _ _ h.symm), hpreR]
  · intro p w₃ domains p₃ w₄ records p₄ w₅ vd vr hc hl hlr hmd hmr hsd hsr
    unfold loadingTask at htask
    simp only [hc, hl, hlr, hmd, hmr, Option.some.injEq, Prod.mk.injEq] at htask
    rw [hpostD, hpostR, ← htask.1]
    constructor
    · rw [cacheSet_get_other _ _ _ _ _ (hne _ _ _ _), cacheSet_get_same _ _ _ _ hsd]
    · rw [cacheSet_get_same _ _ _ _ hsr]

/-- Witness of C5 (amended): three accounts, the second one delegated while
the security-token service refuses, so that creating its provider fails.
The pass returns, the entries of the second account are the old ones, and
the third account has both entries written from its own results. -/
theorem C5_isolation_witness :
    tasksOf demoDelegatedConfiguration = [demoTask1] ++ demoTask2 :: [demoTask3]
    ∧ ∃ cacheF,
      loading (aliyunFactory (accountsEnv "none") demoLib 5) demoExportLib
          (tasksOf demoDelegatedConfiguration) demoCache () = some (cacheF, ())
      ∧ Cache.Get cacheF (domainListCacheKey "aliyun" "acct2") = some "old-domains"
      ∧ Cache.Get cacheF (recordListCacheKey "aliyun" "acct2") = some "old-records"
      ∧ Cache.Get cacheF (domainListCacheKey "aliyun" "acct3")
          = some "domains:acct3/example.com"
      ∧ Cache.Get cacheF (recordListCacheKey "aliyun" "acct3") = some "records:" := by
  refine ⟨rfl, _, rfl, ?_, ?_, ?_, ?_⟩
  · obtain ⟨c₁, w₁, -, hfail, -, -, -⟩ :=
      C5_isolation (aliyunFactory (accountsEnv "none") demoLib 5) demoExportLib
        [demoTask1] [demoTask3] demoTask2 demoCache _ () () rfl (by decide)
    exact (hfail _ () rfl).1
  · obtain ⟨c₁, w₁, -, hfail, -, -, -⟩ :=
      C5_isolation (aliyunFactory (accountsEnv "none") demoLib 5) demoExportLib
        [demoTask1] [demoTask3] demoTask2 demoCache _ () () rfl (by decide)
    exact (hfail _ () rfl).2
  · obtain ⟨c₁, w₁, -, -, -, -, hok⟩ :=
      C5_isolation (aliyunFactory (accountsEnv "none") demoLib 5) demoExportLib
        [demoTask1, demoTask2] [] demoTask3 demoCache _ () () rfl (by decide)
    exact (hok _ () _ _ () _ _ () _ _ rfl rfl rfl rfl rfl rfl rfl).1
  · obtain ⟨c₁, w₁, -, -, -, -, hok⟩ :=
      C5_isolation (aliyunFactory (accountsEnv "none") demoLib 5) demoExportLib
        [demoTask1, demoTask2] [] demoTask3 demoCache _ () () rfl (by decide)
    exact (hok _ () _ _ () _ _ () _ _ rfl rfl rfl rfl rfl rfl rfl).2

/-! ### Concurrent calls of `getValidCredentials` -/

theorem assumeRole_congr {W : Type} (env : Env W) (lib : Lib) (a a₁ : AliyunDNS) (w : W)
    (h : a.account = a₁.account) : assumeRole env lib a w = assumeRole env lib a₁ w := by
  unfold assumeRole
  rw [h]

theorem stepThread_start_static {W : Type} (env : Env W) (lib : Lib) (i : Nat) (s : Shared W)
    (hpc : s.pcs i = .start) (hrole : s.adapter.account.RoleArn = "") :
    stepThread env lib i s = { s with pcs := Function.update s.pcs i (.done (.ok none)) } := by
  unfold stepThread
  rw [hpc]
  simp only [hrole, if_true]

theorem stepThread_start_blocked {W : Type} (env : Env W) (lib : Lib) (i : Nat) (s : Shared W)
    (hpc : s.pcs i = .start) (hrole : s.adapter.account.RoleArn ≠ "") (hw : s.writer = true) :
    stepThread env lib i s = s := by
  unfold stepThread
  rw [hpc]
  simp only [hrole, if_false, hw, if_true]

theorem stepThread_start {W : Type} (env : Env W) (lib : Lib) (i : Nat) (s : Shared W)
    (hpc : s.pcs i = .start) (hrole : s.adapter.account.RoleArn ≠ "") (hw : s.writer = false) :
    stepThread env lib i s
      = { s with readers := s.readers + 1, pcs := Function.update s.pcs i .rlocked } := by
  unfold stepThread
  rw [hpc]
  simp [hrole, hw]

theorem stepThread_rlocked {W : Type} (env : Env W) (lib : Lib) (i : Nat) (s : Shared W)
    (hpc : s.pcs i = .rlocked) :
    stepThread env lib i s
      = { s with world := (storedCredentialsValid env s.adapter s.world).2,
                 readers := s.readers - 1,
                 pcs := Function.update s.pcs i
                   (match (storedCredentialsValid env s.adapter s.world).1 with
                    | some c => .done (.ok (some c))
                    | none => .waiting) } := by
  unfold stepThread
  rw [hpc]
  generalize storedCredentialsValid env s.adapter s.world = res
  obtain ⟨o, w₁⟩ := res
  cases o <;> rfl

theorem stepThread_waiting_blocked {W : Type} (env : Env W) (lib : Lib) (i : Nat)
    (s : Shared W) (hpc : s.pcs i = .waiting) (h : ¬ (s.readers = 0 ∧ s.writer = false)) :
    stepThread env lib i s = s := by
  unfold stepThread
  rw [hpc]
  simp only [h, if_false]

theorem stepThread_waiting {W : Type} (env : Env W) (lib : Lib) (i : Nat) (s : Shared W)
    (hpc : s.pcs i = .waiting) (h : s.readers = 0 ∧ s.writer = false) :
    stepThread env lib i s
      = { s with writer := true, pcs := Function.update s.pcs i .wlocked } := by
  unfold stepThread
  rw [hpc]
  simp only [h, and_self, if_true]

theorem stepThread_wlocked_some {W : Type} (env : Env W) (lib : Lib) (i : Nat) (s : Shared W)
    (hpc : s.pcs i = .wlocked) (c : STSCredentials)
    (h : (storedCredentialsValid env s.adapter s.world).1 = some c) :
    stepThread env lib i s
      = { s with world := (storedCredentialsValid env s.adapter s.world).2, writer := false,
                 pcs := Function.update s.pcs i (.done (.ok (some c))) } := by
  unfold stepThread
  rw [hpc]
  revert h
  generalize storedCredentialsValid env s.adapter s.world = res
  obtain ⟨o, w₁⟩ := res
  intro h
  simp only at h
  subst h
  rfl

theorem stepThread_wlocked_none {W : Type} (env : Env W) (lib : Lib) (i : Nat) (s : Shared W)
    (hpc : s.pcs i = .wlocked)
    (h : (storedCredentialsValid env s.adapter s.world).1 = none) :
    stepThread env lib i s
      = { s with world := (storedCredentialsValid env s.adapter s.world).2,
                 pcs := Function.update s.pcs i .refreshing } := by
  unfold stepThread
  rw [hpc]
  revert h
  generalize storedCredentialsValid env s.adapter s.world = res
  obtain ⟨o, w₁⟩ := res
  intro h
  simp only at h
  subst h
  rfl

theorem stepThread_refreshing {W : Type} (env : Env W) (lib : Lib) (i : Nat) (s : Shared W)
    (hpc : s.pcs i = .refreshing) :
    stepThread env lib i s
      = { s with adapter := (refreshCredentials env lib s.adapter s.world).2.1,
                 world := (refreshCredentials env lib s.adapter s.world).2.2,
                 writer := false, exchanges := s.exchanges + 1,
                 pcs := Function.update s.pcs i
                   (.done (refreshCredentials env lib s.adapter s.world).1) } := by
  unfold stepThread
  rw [hpc]

theorem stepThread_done {W : Type} (env : Env W) (lib : Lib) (i : Nat) (s : Shared W)
    (r : Except String (Option STSCredentials)) (hpc : s.pcs i = .done r) :
    stepThread env lib i s = s := by
  unfold stepThread
  rw [hpc]

theorem check_expired {W : Type} (env : Env W) (a : AliyunDNS) (w : W)
    (hold : ∀ c, a.stsCredentials = some c →
      ¬ (env.timeNow w).1 ≤ c.Expiration - 5 * Minute) :
    (storedCredentialsValid env a w).1 = none := by
  cases hst : a.stsCredentials with
  | none => rw [storedCredentialsValid_none env a w hst]
  | some c =>
    rw [storedCredentialsValid_some env a w c hst]
    have := hold c hst
    simp [this]

theorem check_fresh {W : Type} (env : Env W) (a : AliyunDNS) (w : W) (cNew : STSCredentials)
    (h : a.stsCredentials = some cNew)
    (hnew : (env.timeNow w).1 ≤ cNew.Expiration - 5 * Minute) :
    (storedCredentialsValid env a w).1 = some cNew := by
  rw [storedCredentialsValid_some env a w cNew h]
  simp [hnew]

theorem refreshCredentials_of_ok {W : Type} (env : Env W) (lib : Lib) (a₀ a : AliyunDNS) (w : W)
    (cNew : STSCredentials) (hsts : (assumeRole env lib a₀ w).1 = .ok cNew)
    (hacc : a.account = a₀.account) :
    (refreshCredentials env lib a w).1 = .ok (some cNew)
    ∧ (refreshCredentials env lib a w).2.1 = { a with stsCredentials := some cNew } := by
  unfold refreshCredentials
  rw [assumeRole_congr env lib a a₀ w hacc]
  revert hsts
  generalize assumeRole env lib a₀ w = res
  obtain ⟨r, w₁⟩ := res
  intro h
  simp only at h
  subst h
  exact ⟨rfl, rfl⟩

theorem initial_inv {W : Type} (a₀ : AliyunDNS) (w : W) (cNew : STSCredentials) :
    RefreshInv a₀ cNew (Shared.initial a₀ w) where
  account := rfl
  mutex := by intro i j hi; simp [Shared.initial] at hi
  wflag := by intro i hi; simp [Shared.initial] at hi
  fresh := by intro i hi; simp [Shared.initial] at hi
  count := by simp [Shared.initial]
  zero := fun _ => rfl
  one := by intro h; simp [Shared.initial] at h
  result := by intro i r h; simp [Shared.initial] at h

theorem stepThread_inv {W : Type} (env : Env W) (lib : Lib) (a₀ : AliyunDNS)
    (cNew : STSCredentials) (hrole : a₀.account.RoleArn ≠ "")
    (k : Nat) (s : Shared W) (inv : RefreshInv a₀ cNew s)
    (hold : (s.pcs k = .rlocked ∨ s.pcs k = .wlocked) →
      s.adapter.stsCredentials = a₀.stsCredentials →
      (storedCredentialsValid env s.adapter s.world).1 = none)
    (hnew : (s.pcs k = .rlocked ∨ s.pcs k = .wlocked) →
      s.adapter.stsCredentials = some cNew →
      (storedCredentialsValid env s.adapter s.world).1 = some cNew)
    (hsts : s.pcs k = .refreshing → (assumeRole env lib a₀ s.world).1 = .ok cNew) :
    RefreshInv a₀ cNew (stepThread env lib k s) := by
  have hroleS : s.adapter.account.RoleArn ≠ "" := by rw [inv.account]; exact hrole
  cases hpc : s.pcs k with
  | start =>
    by_cases hw : s.writer = true
    · rw [stepThread_start_blocked env lib k s hpc hroleS hw]
      exact inv
    · have hw2 : s.writer = false := by simpa using hw
      rw [stepThread_start env lib k s hpc hroleS hw2]
      refine ⟨inv.account, ?_, ?_, ?_, inv.count, inv.zero, inv.one, ?_⟩
      · intro i j hi hj
        by_cases hik : i = k
        · subst hik; simp at hi
        · by_cases hjk : j = k
          · subst hjk; simp at hj
          · simp only [Function.update_noteq hik, Function.update_noteq hjk] at hi hj
            exact inv.mutex i j hi hj
      · intro i hi
        by_cases hik : i = k
        · subst hik; simp at hi
        · simp only [Function.update_noteq hik] at hi
          exact absurd (inv.wflag i hi) hw
      · intro i hi
        by_cases hik : i = k
        · subst hik; simp at hi
        · simp only [Function.update_noteq hik] at hi
          exact inv.fresh i hi
      · intro i r hi
        by_cases hik : i = k
        · subst hik; simp at hi
        · simp only [Function.update_noteq hik] at hi
          exact inv.result i r hi
  | rlocked =>
    rw [stepThread_rlocked env lib k s hpc]
    have hcount : s.exchanges = 0 ∨ s.exchanges = 1 := by have := inv.count; omega
    have hnot : ∀ i, i ≠ k →
        Function.update s.pcs k
          (match (storedCredentialsValid env s.adapter s.world).1 with
           | some c => Pc.done (.ok (some c))
           | none => Pc.waiting) i = s.pcs i := fun i hik => Function.update_noteq hik _ _
    refine ⟨inv.account, ?_, ?_, ?_, inv.count, inv.zero, inv.one, ?_⟩
    · intro i j hi hj
      by_cases hik : i = k
      · subst hik
        simp only [Function.update_same] at hi
        split at hi <;> simp at hi
      · by_cases hjk : j = k
        · subst hjk
          simp only [Function.update_same] at hj
          split at hj <;> simp at hj
        · simp only [hnot i hik, hnot j hjk] at hi hj
          exact inv.mutex i j hi hj
    · intro i hi
      by_cases hik : i = k
      · subst hik
        simp only [Function.update_same] at hi
        split at hi <;> simp at hi
      · simp only [hnot i hik] at hi
        exact inv.wflag i hi
    · intro i hi
      by_cases hik : i = k
      · subst hik
        simp only [Function.update_same] at hi
        split at hi <;> simp at hi
      · simp only [hnot i hik] at hi
        exact inv.fresh i hi
    · intro i r hi
      by_cases hik : i = k
      · subst hik
        simp only [Function.update_same] at hi
        rcases hcount with h0 | h1
        · rw [hold (Or.inl hpc) (inv.zero h0)] at hi
          simp at hi
        · rw [hnew (Or.inl hpc) (inv.one h1)] at hi
          simp only [Pc.done.injEq] at hi
          exact ⟨hi.symm, h1⟩
      · simp only [hnot i hik] at hi
        exact inv.result i r hi
  | waiting =>
    by_cases hg : s.readers = 0 ∧ s.writer = false
    · rw [stepThread_waiting env lib k s hpc hg]
      have hnone : ∀ i, ¬ (s.pcs i = .wlocked ∨ s.pcs i = .refreshing) := by
        intro i hi
        have := inv.wflag i hi
        rw [hg.2] at this
        exact Bool.false_ne_true this
      refine ⟨inv.account, ?_, ?_, ?_, inv.count, inv.zero, inv.one, ?_⟩
      · intro i j hi hj
        by_cases hik : i = k
        · by_cases hjk : j = k
          · rw [hik, hjk]
          · simp only [Function.update_noteq hjk] at hj
            exact absurd hj (hnone j)
        · simp only [Function.update_noteq hik] at hi
          exact absurd hi (hnone i)
      · intro i _
        rfl
      · intro i hi
        by_cases hik : i = k
        · subst hik; simp at hi
        · simp only [Function.update_noteq hik] at hi
          exact inv.fresh i hi
      · intro i r hi
        by_cases hik : i = k
        · subst hik; simp at hi
        · simp only [Function.update_noteq hik] at hi
          exact inv.result i r hi
    · rw [stepThread_waiting_blocked env lib k s hpc hg]
      exact inv
  | wlocked =>
    have hcount : s.exchanges = 0 ∨ s.exchanges = 1 := by have := inv.count; omega
    have hother : ∀ i, i ≠ k → ¬ (s.pcs i = .wlocked ∨ s.pcs i = .refreshing) := by
      intro i hik hi
      exact hik (inv.mutex i k hi (Or.inl hpc))
    rcases hcount with h0 | h1
    · rw [stepThread_wlocked_none env lib k s hpc
        (hold (Or.inr hpc) (inv.zero h0))]
      refine ⟨inv.account, ?_, ?_, ?_, inv.count, inv.zero, inv.one, ?_⟩
      · intro i j hi hj
        by_cases hik : i = k
        · by_cases hjk : j = k
          · rw [hik, hjk]
          · simp only [Function.update_noteq hjk] at hj
            exact absurd hj (hother j hjk)
        · simp only [Function.update_noteq hik] at hi
          exact absurd hi (hother i hik)
      · intro i _
        exact inv.wflag k (Or.inl hpc)
      · intro i _
        exact h0
      · intro i r hi
        by_cases hik : i = k
        · subst hik; simp at hi
        · simp only [Function.update_noteq hik] at hi
          exact inv.result i r hi
    · rw [stepThread_wlocked_some env lib k s hpc cNew
        (hnew (Or.inr hpc) (inv.one h1))]
      refine ⟨inv.account, ?_, ?_, ?_, inv.count, inv.zero, inv.one, ?_⟩
      · intro i j hi hj
        by_cases hik : i = k
        · subst hik; simp at hi
        · simp only [Function.update_noteq hik] at hi
          exact absurd hi (hother i hik)
      · intro i hi
        by_cases hik : i = k
        · subst hik; simp at hi
        · simp only [Function.update_noteq hik] at hi
          exact absurd hi (hother i hik)
      · intro i hi
        by_cases hik : i = k
        · subst hik; simp at hi
        · simp only [Function.update_noteq hik] at hi
          exact inv.fresh i hi
      · intro i r hi
        by_cases hik : i = k
        · subst hik
          simp only [Function.update_same, Pc.done.injEq] at hi
          exact ⟨hi.symm, h1⟩
        · simp only [Function.update_noteq hik] at hi
          exact inv.result i r hi
  | refreshing =>
    have h0 : s.exchanges = 0 := inv.fresh k hpc
    have hother : ∀ i, i ≠ k → ¬ (s.pcs i = .wlocked ∨ s.pcs i = .refreshing) := by
      intro i hik hi
      exact hik (inv.mutex i k hi (Or.inr hpc))
    obtain ⟨hres, hadp⟩ := refreshCredentials_of_ok env lib a₀ s.adapter s.world cNew
      (hsts hpc) inv.account
    rw [stepThread_refreshing env lib k s hpc, hres, hadp]
    refine ⟨inv.account, ?_, ?_, ?_, ?_, ?_, ?_, ?_⟩
    · intro i j hi hj
      by_cases hik : i = k
      · subst hik; simp at hi
      · simp only [Function.update_noteq hik] at hi
        exact absurd hi (hother i hik)
    · intro i hi
      by_cases hik : i = k
      · subst hik; simp at hi
      · simp only [Function.update_noteq hik] at hi
        exact absurd hi (hother i hik)
    · intro i hi
      by_cases hik : i = k
      · subst hik; simp at hi
      · simp only [Function.update_noteq hik] at hi
        exact absurd (Or.inr hi) (hother i hik)
    · simp only [h0]
      omega
    · intro h
      simp only [h0] at h
      omega
    · intro _
      rfl
    · intro i r hi
      by_cases hik : i = k
      · subst hik
        simp only [Function.update_same, Pc.done.injEq] at hi
        exact ⟨hi.symm, by simp only [h0]⟩
      · simp only [Function.update_noteq hik] at hi
        have := (inv.result i r hi).2
        omega
  | done r =>
    rw [stepThread_done env lib k s r hpc]
    exact inv

theorem runSchedule_inv {W : Type} (env : Env W) (lib : Lib) (a₀ : AliyunDNS)
    (cNew : STSCredentials) (hrole : a₀.account.RoleArn ≠ "") :
    ∀ (schedule : List Nat) (s : Shared W), RefreshInv a₀ cNew s →
      (∀ pre k rest, schedule = pre ++ k :: rest →
        ((runSchedule env lib pre s).pcs k = .rlocked
          ∨ (runSchedule env lib pre s).pcs k = .wlocked) →
        ∀ c, (runSchedule env lib pre s).adapter.stsCredentials = some c →
          (a₀.stsCredentials = some c →
            ¬ (env.timeNow (runSchedule env lib pre s).world).1 ≤ c.Expiration - 5 * Minute)
          ∧ (c = cNew →
            (env.timeNow (runSchedule env lib pre s).world).1
              ≤ cNew.Expiration - 5 * Minute)) →
      (∀ pre k rest, schedule = pre ++ k :: rest →
        (runSchedule env lib pre s).pcs k = .refreshing →
        (assumeRole env lib a₀ (runSchedule env lib pre s).world).1 = .ok cNew) →
      RefreshInv a₀ cNew (runSchedule env lib schedule s) := by
  intro schedule
  induction schedule with
  | nil => intro s inv _ _; exact inv
  | cons k rest ih =>
    intro s inv hcheck hexch
    have hc := hcheck [] k rest rfl
    have hx := hexch [] k rest rfl
    have hstep : RefreshInv a₀ cNew (stepThread env lib k s) := by
      apply stepThread_inv env lib a₀ cNew hrole k s inv
      · intro hpc hst
        apply check_expired
        intro c hc₁
        exact (hc hpc c hc₁).1 (by rw [← hst]; exact hc₁)
      · intro hpc hst
        exact check_fresh env s.adapter s.world cNew hst ((hc hpc cNew hst).2 rfl)
      · exact hx
    apply ih (stepThread env lib k s) hstep
    · intro pre k₁ rest₁ hsched
      exact hcheck (k :: pre) k₁ rest₁ (by rw [hsched]; rfl)
    · intro pre k₁ rest₁ hsched
      exact hexch (k :: pre) k₁ rest₁ (by rw [hsched]; rfl)

theorem runSchedule_append {W : Type} (env : Env W) (lib : Lib) (xs ys : List Nat)
    (s : Shared W) :
    runSchedule env lib (xs ++ ys) s = runSchedule env lib ys (runSchedule env lib xs s) := by
  simp [runSchedule, List.foldl_append]

/-- With the lock free, a goroutine that has not started returns within
five moves of its own, leaves the lock free and moves no other goroutine. -/
theorem five_moves_return {W : Type} (env : Env W) (lib : Lib) (i : Nat) (s : Shared W)
    (hr : s.readers = 0) (hw : s.writer = false) (hpc : s.pcs i = .start) :
    (∃ r, (runSchedule env lib [i, i, i, i, i] s).pcs i = .done r)
    ∧ (runSchedule env lib [i, i, i, i, i] s).readers = 0
    ∧ (runSchedule env lib [i, i, i, i, i] s).writer = false
    ∧ ∀ j, j ≠ i → (runSchedule env lib [i, i, i, i, i] s).pcs j = s.pcs j := by
  simp only [runSchedule, List.foldl]
  by_cases hrole : s.adapter.account.RoleArn = ""
  · simp [stepThread, hrole, hpc, hr, hw]
    intro j hj
    exact Function.update_noteq hj _ _
  · cases h1 : storedCredentialsValid env s.adapter s.world with
    | mk o₁ w₁ =>
      cases o₁ with
      | some c =>
        simp [stepThread, hrole, hpc, hr, hw, h1]
        intro j hj
        simp [Function.update_noteq hj]
      | none =>
        cases h2 : storedCredentialsValid env s.adapter w₁ with
        | mk o₂ w₂ =>
          cases o₂ with
          | some c =>
            simp [stepThread, hrole, hpc, hr, hw, h1, h2]
            intro j hj
            simp [Function.update_noteq hj]
          | none =>
            cases h3 : refreshCredentials env lib s.adapter w₂ with
            | mk r rest =>
              obtain ⟨a₁, w₃⟩ := rest
              simp [stepThread, hrole, hpc, hr, hw, h1, h2, h3]
              intro j hj
              simp [Function.update_noteq hj]

/-- From a state with the lock free in which goroutines `0`, ..., `N - 1`
have not started, the run `oneByOne N` makes all of them return. -/
theorem oneByOne_returns {W : Type} (env : Env W) (lib : Lib) :
    ∀ (N : Nat) (s : Shared W), s.readers = 0 → s.writer = false →
      (∀ i, i < N → s.pcs i = .start) →
      (∀ i, i < N → ∃ r, (runSchedule env lib (oneByOne N) s).pcs i = .done r)
      ∧ (runSchedule env lib (oneByOne N) s).readers = 0
      ∧ (runSchedule env lib (oneByOne N) s).writer = false
      ∧ ∀ j, N ≤ j → (runSchedule env lib (oneByOne N) s).pcs j = s.pcs j := by
  intro N
  induction N with
  | zero =>
    intro s hr hw _
    simp [oneByOne, runSchedule, hr, hw]
  | succ N ih =>
    intro s hr hw hstart
    obtain ⟨hdone, hr₁, hw₁, hrest⟩ := ih s hr hw (fun i hi => hstart i (by omega))
    have hsched : oneByOne (N + 1) = oneByOne N ++ [N, N, N, N, N] := by
      simp [oneByOne, List.range_succ]
    rw [hsched, runSchedule_append]
    have hN : (runSchedule env lib (oneByOne N) s).pcs N = .start := by
      rw [hrest N (Nat.le_refl N)]
      exact hstart N (by omega)
    obtain ⟨hd, hr₂, hw₂, hoth⟩ :=
      five_moves_return env lib N (runSchedule env lib (oneByOne N) s) hr₁ hw₁ hN
    refine ⟨?_, hr₂, hw₂, ?_⟩
    · intro i hi
      by_cases hiN : i = N
      · rw [hiN]; exact hd
      · rw [hoth i hiN]
        exact hdone i (by omega)
    · intro j hj
      rw [hoth j (by omega)]
      exact hrest j (by omega)

/-- Counterexample to C11: two concurrent calls on a delegated account with
no stored credential, while the security-token service refuses. Each caller
in turn takes the write lock, finds nothing stored and calls `assumeRole`:
two exchanges are made (two `AssumeRole` requests are logged) and both
callers get the error. -/
theorem C11_counterexample :
    (runSchedule (stsEnv (10 * Minute) (.error "refused")).traced demoTimeLib
        [0, 1, 0, 1, 0, 1, 0, 1, 0, 1, 1, 1]
        (Shared.initial { account := demoRoleAccount } ((), []))).exchanges = 2
    ∧ (runSchedule (stsEnv (10 * Minute) (.error "refused")).traced demoTimeLib
        [0, 1, 0, 1, 0, 1, 0, 1, 0, 1, 1, 1]
        (Shared.initial { account := demoRoleAccount } ((), []))).world.2
      = [Call.AssumeRole (stsRequest demoRoleAccount),
         Call.AssumeRole (stsRequest demoRoleAccount)]
    ∧ (runSchedule (stsEnv (10 * Minute) (.error "refused")).traced demoTimeLib
        [0, 1, 0, 1, 0, 1, 0, 1, 0, 1, 1, 1]
        (Shared.initial { account := demoRoleAccount } ((), []))).pcs 0
      = .done (.error "AssumeRole 失败: refused")
    ∧ (runSchedule (stsEnv (10 * Minute) (.error "refused")).traced demoTimeLib
        [0, 1, 0, 1, 0, 1, 0, 1, 0, 1, 1, 1]
        (Shared.initial { account := demoRoleAccount } ((), []))).pcs 1
      = .done (.error "AssumeRole 失败: refused") :=
  ⟨rfl, rfl, rfl, rfl⟩

/-- C11 (amended). `N >= 1` goroutines call `getValidCredentials` on one
delegated account, in any interleaving of their moves. Every check of the
stored credential made during the run finds the credential stored at the
outset (if any) expired and the credential `cNew` within its lookahead
(now <= expiration - 5 minutes), and every call of `assumeRole` made during
the run succeeds with `cNew`. Once all `N` calls have returned, exactly one
call of `assumeRole` has been made and every caller was given `cNew`; and
there is a run in which all `N` calls return, the one that serves the
goroutines one by one. -/
theorem C11_single_exchange {W : Type} (env : Env W) (lib : Lib) (a₀ : AliyunDNS) (w₀ : W)
    (cNew : STSCredentials) (N : Nat) (schedule : List Nat)
    (hrole : a₀.account.RoleArn ≠ "")
    (hcheck : ∀ pre k rest, schedule = pre ++ k :: rest →
      ((runSchedule env lib pre (Shared.initial a₀ w₀)).pcs k = .rlocked
        ∨ (runSchedule env lib pre (Shared.initial a₀ w₀)).pcs k = .wlocked) →
      ∀ c, (runSchedule env lib pre (Shared.initial a₀ w₀)).adapter.stsCredentials = some c →
        (a₀.stsCredentials = some c →
          ¬ (env.timeNow (runSchedule env lib pre (Shared.initial a₀ w₀)).world).1
              ≤ c.Expiration - 5 * Minute)
        ∧ (c = cNew →
          (env.timeNow (runSchedule env lib pre (Shared.initial a₀ w₀)).world).1
            ≤ cNew.Expiration - 5 * Minute))
    (hexch : ∀ pre k rest, schedule = pre ++ k :: rest →
      (runSchedule env lib pre (Shared.initial a₀ w₀)).pcs k = .refreshing →
      (assumeRole env lib a₀ (runSchedule env lib pre (Shared.initial a₀ w₀)).world).1
        = .ok cNew)
    (hN : 1 ≤ N)
    (hdone : ∀ i, i < N →
      ∃ r, (runSchedule env lib schedule (Shared.initial a₀ w₀)).pcs i = .done r) :
    (runSchedule env lib schedule (Shared.initial a₀ w₀)).exchanges = 1
    ∧ (∀ i, i < N →
        (runSchedule env lib schedule (Shared.initial a₀ w₀)).pcs i
          = .done (.ok (some cNew)))
    ∧ ∀ i, i < N →
        ∃ r, (runSchedule env lib (oneByOne N) (Shared.initial a₀ w₀)).pcs i = .done r := by
  have inv := runSchedule_inv env lib a₀ cNew hrole schedule _
    (initial_inv a₀ w₀ cNew) hcheck hexch
  refine ⟨?_, ?_, ?_⟩
  · obtain ⟨r, hr⟩ := hdone 0 (by omega)
    exact (inv.result 0 r hr).2
  · intro i hi
    obtain ⟨r, hr⟩ := hdone i hi
    rw [hr, (inv.result i r hr).1]
  · exact (oneByOne_returns env lib N (Shared.initial a₀ w₀) rfl rfl (fun _ _ => rfl)).1

theorem storedCredentialsValid_ticking (response : Except String AssumeRoleResponse)
    (a : AliyunDNS) (n : Nat) :
    (storedCredentialsValid (tickingEnv response) a n).2 ≤ n + 1 := by
  cases hst : a.stsCredentials with
  | none => rw [storedCredentialsValid_none _ a n hst]; exact Nat.le_succ n
  | some c => rw [storedCredentialsValid_some _ a n c hst]; exact Nat.le_refl _

theorem refreshCredentials_ticking (response : Except String AssumeRoleResponse) (lib : Lib)
    (a : AliyunDNS) (n : Nat) :
    (refreshCredentials (tickingEnv response) lib a n).2.2 ≤ n + 1 := by
  have h : (assumeRole (tickingEnv response) lib a n).2 = n := by
    unfold assumeRole
    have hs : (tickingEnv response).stsAssumeRole (stsConfig a.account)
        (stsRequest a.account) n = (response, n) := rfl
    rw [hs]
    split
    · rfl
    · split
      · rfl
      · cases response with
        | error e => rfl
        | ok r =>
          simp only
          repeat (first | rfl | split)
  unfold refreshCredentials
  revert h
  generalize assumeRole (tickingEnv response) lib a n = res
  obtain ⟨r, n₁⟩ := res
  intro h
  simp only at h
  subst h
  cases r <;> exact Nat.le_succ _

theorem stepThread_ticking (response : Except String AssumeRoleResponse) (lib : Lib) (k : Nat)
    (s : Shared Nat) : (stepThread (tickingEnv response) lib k s).world ≤ s.world + 1 := by
  cases hpc : s.pcs k with
  | start =>
    unfold stepThread
    rw [hpc]
    simp only
    split
    · exact Nat.le_succ _
    · split <;> exact Nat.le_succ _
  | rlocked =>
    rw [stepThread_rlocked _ lib k s hpc]
    exact storedCredentialsValid_ticking response s.adapter s.world
  | waiting =>
    unfold stepThread
    rw [hpc]
    simp only
    split <;> exact Nat.le_succ _
  | wlocked =>
    cases hchk : (storedCredentialsValid (tickingEnv response) s.adapter s.world).1 with
    | none =>
      rw [stepThread_wlocked_none _ lib k s hpc hchk]
      exact storedCredentialsValid_ticking response s.adapter s.world
    | some c =>
      rw [stepThread_wlocked_some _ lib k s hpc c hchk]
      exact storedCredentialsValid_ticking response s.adapter s.world
  | refreshing =>
    rw [stepThread_refreshing _ lib k s hpc]
    exact refreshCredentials_ticking response lib s.adapter s.world
  | done r =>
    rw [stepThread_done _ lib k s r hpc]
    exact Nat.le_succ _

theorem runSchedule_ticking (response : Except String AssumeRoleResponse) (lib : Lib) :
    ∀ (schedule : List Nat) (s : Shared Nat),
      (runSchedule (tickingEnv response) lib schedule s).world ≤ s.world + schedule.length := by
  intro schedule
  induction schedule with
  | nil => intro s; exact Nat.le_refl _
  | cons k rest ih =>
    intro s
    have h1 := ih (stepThread (tickingEnv response) lib k s)
    have h2 := stepThread_ticking response lib k s
    simp only [List.length_cons]
    show (runSchedule (tickingEnv response) lib rest
      (stepThread (tickingEnv response) lib k s)).world ≤ _
    omega

/-- Witness of C11 (amended): three callers and a clock that advances by a
minute at every reading. The stored credential expired at time 0, the
service answers with a credential that expires after one hour; the callers
move in turn until all have returned. -/
theorem C11_single_exchange_witness :
    (runSchedule (tickingEnv (.ok (demoAssumeRoleResponse "1970-01-01T01:00:00Z")))
        demoTimeLib [0, 1, 2, 0, 1, 2, 0, 1, 2, 0, 1, 2, 0, 1, 2, 1, 2, 2, 2]
        (Shared.initial
          { account := demoRoleAccount, stsCredentials := some (demoCredentials 0) }
          0)).exchanges = 1
    ∧ ∀ i, i < 3 →
        (runSchedule (tickingEnv (.ok (demoAssumeRoleResponse "1970-01-01T01:00:00Z")))
          demoTimeLib [0, 1, 2, 0, 1, 2, 0, 1, 2, 0, 1, 2, 0, 1, 2, 1, 2, 2, 2]
          (Shared.initial
            { account := demoRoleAccount, stsCredentials := some (demoCredentials 0) }
            0)).pcs i
          = .done (.ok (some { AccessKeyId := "STS.id", AccessKeySecret := "sts-secret",
                               SecurityToken := "token", Expiration := 60 * Minute })) :=
  have h := C11_single_exchange
    (tickingEnv (.ok (demoAssumeRoleResponse "1970-01-01T01:00:00Z")))
    demoTimeLib { account := demoRoleAccount, stsCredentials := some (demoCredentials 0) } 0
    { AccessKeyId := "STS.id", AccessKeySecret := "sts-secret", SecurityToken := "token",
      Expiration := 60 * Minute } 3
    [0, 1, 2, 0, 1, 2, 0, 1, 2, 0, 1, 2, 0, 1, 2, 1, 2, 2, 2]
    (by decide)
    (by
      intro pre k rest hsched _ c _
      have hlen := congrArg List.length hsched
      simp only [List.length_cons, List.length_nil, List.length_append] at hlen
      have hw := runSchedule_ticking (.ok (demoAssumeRoleResponse "1970-01-01T01:00:00Z"))
        demoTimeLib pre (Shared.initial
          { account := demoRoleAccount, stsCredentials := some (demoCredentials 0) } 0)
      generalize (runSchedule (tickingEnv (.ok (demoAssumeRoleResponse "1970-01-01T01:00:00Z")))
        demoTimeLib pre (Shared.initial
          { account := demoRoleAccount, stsCredentials := some (demoCredentials 0) }
          0)).world = n at hw ⊢
      have hn : n ≤ 18 := by
        have : (Shared.initial
          { account := demoRoleAccount, stsCredentials := some (demoCredentials 0) }
          (0 : Nat)).world = 0 := rfl
        omega
      constructor
      · intro hc
        simp only [Option.some.injEq] at hc
        subst hc
        show ¬ ((n : Int) * Minute ≤ (demoCredentials 0).Expiration - 5 * Minute)
        simp only [Minute, demoCredentials]
        omega
      · intro hc
        show (n : Int) * Minute ≤ 60 * Minute - 5 * Minute
        simp only [Minute]
        omega)
    (fun _ _ _ _ _ => rfl)
    (by decide)
    (by
      intro i hi
      interval_cases i <;> exact ⟨_, rfl⟩)
  ⟨h.1, h.2.1⟩

/-! ### Domain identifiers -/

theorem string_append_left_cancel (p x y : String) : p ++ x = p ++ y ↔ x = y := by
  constructor
  · intro h
    have h2 := congrArg String.data h
    simp only [String.data_append, List.append_cancel_left_eq] at h2
    exact String.ext h2
  · intro h
    rw [h]

theorem TrimPrefix_append (p z : String) : TrimPrefix (p ++ z) p = z := by
  unfold TrimPrefix
  have hp : p.data.isPrefixOf (p ++ z).data = true := by
    rw [String.data_append, List.isPrefixOf_iff_prefix]
    exact List.prefix_append _ _
  rw [if_pos hp]
  apply String.ext
  show List.drop p.data.length (p ++ z).data = z.data
  rw [String.data_append, List.drop_left]

/-- C15. The domain converters encode the visibility in the prefix of
`DomainID`: the public converter gives `public_` followed by the domain name
with `DomainType` `public`, the private converter gives `private_` followed
by the zone id with `DomainType` `private`. A public `DomainID` never equals
a private one, two public (two private) `DomainID`s are equal only for equal
domain names (zone ids), and `TrimPrefix` with `private_`, as applied in
`listPrivateRecords`, gives back the zone id. -/
theorem C15_domain_id (lib₁ lib₂ : Lib) (acc₁ acc₂ : Account) (d d₂ : PublicDomainItem)
    (z z₂ : PrivateZoneItem) :
    (convertPublicDomainToCommon lib₁ acc₁ d).DomainID = "public_" ++ StringValue d.DomainName
    ∧ (convertPublicDomainToCommon lib₁ acc₁ d).DomainType = "public"
    ∧ (convertPrivateDomainToCommon lib₁ acc₁ z).DomainID = "private_" ++ StringValue z.ZoneId
    ∧ (convertPrivateDomainToCommon lib₁ acc₁ z).DomainType = "private"
    ∧ (convertPublicDomainToCommon lib₁ acc₁ d).DomainID
        ≠ (convertPrivateDomainToCommon lib₂ acc₂ z).DomainID
    ∧ ((convertPublicDomainToCommon lib₁ acc₁ d).DomainID
          = (convertPublicDomainToCommon lib₂ acc₂ d₂).DomainID
        ↔ StringValue d.DomainName = StringValue d₂.DomainName)
    ∧ ((convertPrivateDomainToCommon lib₁ acc₁ z).DomainID
          = (convertPrivateDomainToCommon lib₂ acc₂ z₂).DomainID
        ↔ StringValue z.ZoneId = StringValue z₂.ZoneId)
    ∧ TrimPrefix (convertPrivateDomainToCommon lib₁ acc₁ z).DomainID "private_"
        = StringValue z.ZoneId := by
  refine ⟨rfl, rfl, rfl, rfl, ?_, ?_, ?_, ?_⟩
  · show "public_" ++ StringValue d.DomainName ≠ "private_" ++ StringValue z.ZoneId
    intro h
    have h2 := congrArg String.data h
    simp [String.data_append] at h2
  · show "public_" ++ StringValue d.DomainName = "public_" ++ StringValue d₂.DomainName ↔ _
    exact string_append_left_cancel _ _ _
  · show "private_" ++ StringValue z.ZoneId = "private_" ++ StringValue z₂.ZoneId ↔ _
    exact string_append_left_cancel _ _ _
  · show TrimPrefix ("private_" ++ StringValue z.ZoneId) "private_" = _
    exact TrimPrefix_append _ _

/-! ### Cache keys -/

theorem split_unique {α : Type} (a : α) :
    ∀ (x₁ x₂ y₁ y₂ : List α), a ∉ x₁ → a ∉ x₂ → x₁ ++ a :: y₁ = x₂ ++ a :: y₂ →
      x₁ = x₂ ∧ y₁ = y₂ := by
  intro x₁
  induction x₁ with
  | nil =>
    intro x₂ y₁ y₂ _ h₂ h
    cases x₂ with
    | nil => simpa using h
    | cons b x₂ =>
      simp only [List.nil_append, List.cons_append, List.cons.injEq] at h
      exact absurd (h.1 ▸ List.mem_cons_self _ _) h₂
  | cons c x₁ ih =>
    intro x₂ y₁ y₂ h₁ h₂ h
    cases x₂ with
    | nil =>
      simp only [List.nil_append, List.cons_append, List.cons.injEq] at h
      exact absurd (h.1 ▸ List.mem_cons_self _ _) h₁
    | cons b x₂ =>
      simp only [List.cons_append, List.cons.injEq] at h
      have hrest := ih x₂ y₁ y₂ (fun hm => h₁ (List.mem_cons_of_mem _ hm))
        (fun hm => h₂ (List.mem_cons_of_mem _ hm)) h.2
      exact ⟨by rw [h.1, hrest.1], hrest.2⟩

theorem key_inj (metric p₁ n₁ p₂ n₂ : String) (h₁ : '_' ∉ p₁.data) (h₂ : '_' ∉ p₂.data)
    (h : metric ++ "_" ++ p₁ ++ "_" ++ n₁ = metric ++ "_" ++ p₂ ++ "_" ++ n₂) :
    p₁ = p₂ ∧ n₁ = n₂ := by
  have h2 := congrArg String.data h
  simp only [String.data_append, List.append_assoc, List.append_cancel_left_eq] at h2
  have h3 : p₁.data ++ '_' :: n₁.data = p₂.data ++ '_' :: n₂.data := by
    simpa using h2
  have h4 := split_unique '_' _ _ _ _ h₁ h₂ h3
  exact ⟨String.ext h4.1, String.ext h4.2⟩

/-- Counterexample to C12: for the metric `domain_list` the pairs
(`a_b`, `c`) and (`a`, `b_c`) differ and give the same key, and the pair
(`custom`, `records`) gives the custom-record key. -/
theorem C12_counterexample :
    (("a_b", "c") : String × String) ≠ ("a", "b_c")
    ∧ domainListCacheKey "a_b" "c" = domainListCacheKey "a" "b_c"
    ∧ recordCertInfoCacheKey "custom" "records" = customRecordCertCacheKey := by
  decide

/-- C12 (amended). The keys of the orchestrator are the metric, `_`, the
provider id, `_` and the account name, with the metrics `domain_list`,
`record_list` and `record_cert_info`; the custom-record key is
`record_cert_info_custom_records`. For every pair of provider id and account
name, its `domain_list` key and its `record_list` key differ from the
custom-record key. For a fixed metric, two pairs whose provider ids contain
no `_` give the same key only when they are the same pair, and the
`record_cert_info` key of a pair whose provider id contains no `_` is the
custom-record key only for the pair (`custom`, `records`). -/
theorem C12_cache_keys (p₁ n₁ p₂ n₂ : String) :
    (domainListCacheKey p₁ n₁ = "domain_list" ++ "_" ++ p₁ ++ "_" ++ n₁
      ∧ recordListCacheKey p₁ n₁ = "record_list" ++ "_" ++ p₁ ++ "_" ++ n₁
      ∧ recordCertInfoCacheKey p₁ n₁ = "record_cert_info" ++ "_" ++ p₁ ++ "_" ++ n₁
      ∧ customRecordCertCacheKey = "record_cert_info_custom_records")
    ∧ domainListCacheKey p₁ n₁ ≠ customRecordCertCacheKey
    ∧ recordListCacheKey p₁ n₁ ≠ customRecordCertCacheKey
    ∧ ('_' ∉ p₁.data → '_' ∉ p₂.data →
        (domainListCacheKey p₁ n₁ = domainListCacheKey p₂ n₂ ↔ (p₁ = p₂ ∧ n₁ = n₂))
        ∧ (recordListCacheKey p₁ n₁ = recordListCacheKey p₂ n₂ ↔ (p₁ = p₂ ∧ n₁ = n₂))
        ∧ (recordCertInfoCacheKey p₁ n₁ = recordCertInfoCacheKey p₂ n₂
            ↔ (p₁ = p₂ ∧ n₁ = n₂)))
    ∧ ('_' ∉ p₁.data →
        (recordCertInfoCacheKey p₁ n₁ = customRecordCertCacheKey ↔
          (p₁ = "custom" ∧ n₁ = "records"))) := by
  refine ⟨⟨rfl, rfl, rfl, by decide⟩, ?_, ?_, ?_, ?_⟩
  · intro h
    have h2 := congrArg (fun s => s.data.head?) h
    simp [domainListCacheKey, customRecordCertCacheKey, DomainList, RecordCertInfo,
      String.data_append] at h2
  · intro h
    have h2 := congrArg (fun s => s.data.take 8) h
    simp [recordListCacheKey, customRecordCertCacheKey, RecordList, RecordCertInfo,
      String.data_append] at h2
  · intro h₁ h₂
    refine ⟨?_, ?_, ?_⟩
    · constructor
      · exact key_inj _ _ _ _ _ h₁ h₂
      · rintro ⟨rfl, rfl⟩; rfl
    · constructor
      · exact key_inj _ _ _ _ _ h₁ h₂
      · rintro ⟨rfl, rfl⟩; rfl
    · constructor
      · exact key_inj _ _ _ _ _ h₁ h₂
      · rintro ⟨rfl, rfl⟩; rfl
  · intro h₁
    constructor
    · intro h
      have h3 : RecordCertInfo ++ "_" ++ p₁ ++ "_" ++ n₁
          = RecordCertInfo ++ "_" ++ "custom" ++ "_" ++ "records" := by
        have hc : customRecordCertCacheKey
            = RecordCertInfo ++ "_" ++ "custom" ++ "_" ++ "records" := by decide
        rw [← hc, ← h]
        rfl
      exact key_inj _ _ _ _ _ h₁ (by decide) h3
    · rintro ⟨rfl, rfl⟩
      decide

/-- Witness of C12 (amended): the provider constants contain no `_`; an
Aliyun and a Tencent account of the same name have different keys, and the
keys of an Aliyun account are not the custom-record key. -/
theorem C12_cache_keys_witness :
    ('_' ∉ TencentDnsProvider.data ∧ '_' ∉ AliyunDnsProvider.data
      ∧ '_' ∉ GodaddyDnsProvider.data ∧ '_' ∉ DNSLaDnsProvider.data
      ∧ '_' ∉ AmazonDnsProvider.data ∧ '_' ∉ CloudFlareDnsProvider.data)
    ∧ domainListCacheKey AliyunDnsProvider "prod_1" ≠ domainListCacheKey TencentDnsProvider
        "prod_1"
    ∧ recordCertInfoCacheKey AliyunDnsProvider "prod_1" ≠ customRecordCertCacheKey := by
  have h := C12_cache_keys AliyunDnsProvider "prod_1" TencentDnsProvider "prod_1"
  refine ⟨by decide, ?_, ?_⟩
  · intro he
    exact absurd (((h.2.2.2.1 (by decide) (by decide)).1).mp he).1 (by decide)
  · intro he
    exact absurd ((h.2.2.2.2 (by decide)).mp he).1 (by decide)

/-! ### Serialization failures and custom records -/

/-- Counterexample to C13: the serializer fails on the domain list of an
account (and on nothing else), resp. on the certificate list of the custom
records. `loading` still sets the `domain_list` key and
`loadingCustomRecordCert` still sets the `record_cert_info_custom_records`
key, each to the empty value, in place of the entry of an earlier pass. -/
theorem C13_counterexample :
    (∃ cacheF,
      loadingTask (aliyunFactory (accountsEnv "none") demoLib 5) domainFailingExportLib
          "aliyun" "acct1" [("name", "acct1"), ("secretId", "id1"), ("secretKey", "k1")]
          demoCache1 () = some (cacheF, ())
      ∧ Cache.Get demoCache1 (domainListCacheKey "aliyun" "acct1") = some "old-domains"
      ∧ Cache.Get cacheF (domainListCacheKey "aliyun" "acct1") = some "")
    ∧ Cache.Get demoCertCache customRecordCertCacheKey = some "old-custom-certs"
    ∧ Cache.Get
        (loadingCustomRecordCert (demoCertLib false)
          { CustomRecords := ["status.example.com"], CloudProviders := [] }
          demoCache1 demoCertCache 0).1 customRecordCertCacheKey = some "" :=
  ⟨⟨_, rfl, by decide, by decide⟩, by decide, by decide⟩

/-- C13 (amended). When serializing the record list fails in `loading`
(after the domain list was listed and serialized), the goroutine returns
with the cache as the write of the `domain_list` entry left it: no `Set` is
made on the `record_list` key. When serializing the certificate list fails
in `loadingCert`, the goroutine returns with the certificate cache as it
was: no `Set` is made on the `record_cert_info` key of the account. -/
theorem C13_failed_marshal_skips {P W CI V : Type} (F : Factory P W) (xl : ExportLib)
    (cl : CertLib CI V) (cloudProvider cloudName : String) (account : AccountAttrs)
    (cache certCache : Cache) (w : W) (v : V) :
    (∀ p w₁ domains p₂ w₂ records p₃ w₃ value err,
      F.Create cloudProvider account w = (.ok p, w₁) →
      F.ListDomains p w₁ = some ((domains, none), p₂, w₂) →
      F.ListRecords p₂ w₂ = some ((records, none), p₃, w₃) →
      xl.marshalDomains domains = .ok value →
      xl.marshalRecords records = .error err →
        loadingTask F xl cloudProvider cloudName account cache w
          = some (cacheSet xl cache (domainListCacheKey cloudProvider cloudName) value, w₃)
        ∧ Cache.Get (cacheSet xl cache (domainListCacheKey cloudProvider cloudName) value)
              (recordListCacheKey cloudProvider cloudName)
            = Cache.Get cache (recordListCacheKey cloudProvider cloudName))
    ∧ (∀ rst2 records recordCerts v₂ err,
      cache.Get (recordListCacheKey cloudProvider cloudName) = some rst2 →
      cl.unmarshalRecords rst2 = .ok records →
      records.length ≠ 0 →
      cl.GetMultipleCertInfo
          ((cl.getNewRecord records cache certCache v).1.map certReqOfRecord)
          (cl.getNewRecord records cache certCache v).2 = (.ok recordCerts, v₂) →
      cl.marshalCerts recordCerts = .error err →
        loadingCertTask cl cloudProvider cloudName cache certCache v = (certCache, v₂)) := by
  constructor
  · intro p w₁ domains p₂ w₂ records p₃ w₃ value err hc hl hlr hmd hmr
    constructor
    · unfold loadingTask
      simp only [hc, hl, hlr, hmd, hmr]
    · exact cacheSet_get_other xl cache _ _ _
        (fun h => domainKey_ne_recordKey _ _ _ _ h.symm)
  · intro rst2 records recordCerts v₂ err hget hun hlen hprobe hm
    unfold loadingCertTask
    rw [hget]
    simp only
    rw [hun]
    simp only
    rw [if_neg hlen, hprobe]
    simp only
    rw [hm]

/-- Witness of C13 (amended): an account whose record list does not
serialize keeps its old `record_list` entry while its `domain_list` entry
is written, and an account whose certificate list does not serialize keeps
its old `record_cert_info` entry. -/
theorem C13_failed_marshal_skips_witness :
    (∃ cacheF,
      loadingTask (aliyunFactory (accountsEnv "none") demoLib 5) recordFailingExportLib
          "aliyun" "acct1" [("name", "acct1"), ("secretId", "id1"), ("secretKey", "k1")]
          demoCache1 () = some (cacheF, ())
      ∧ Cache.Get cacheF (domainListCacheKey "aliyun" "acct1")
          = some "domains:acct1/example.com"
      ∧ Cache.Get cacheF (recordListCacheKey "aliyun" "acct1") = some "old-records")
    ∧ loadingCertTask (demoCertLib false) "aliyun" "acct1" demoCache1 demoCertCache 0
        = (demoCertCache, 0) := by
  have h := C13_failed_marshal_skips (aliyunFactory (accountsEnv "none") demoLib 5)
    recordFailingExportLib (demoCertLib false) "aliyun" "acct1"
    [("name", "acct1"), ("secretId", "id1"), ("secretKey", "k1")] demoCache1 demoCertCache
    () 0
  obtain ⟨hA, hB⟩ := h
  have hA2 := hA _ () _ _ () _ _ () _ "unsupported value" rfl rfl rfl rfl rfl
  refine ⟨⟨_, hA2.1, by decide, ?_⟩, ?_⟩
  · rw [hA2.2]
    decide
  · exact hB "old-records" _ _ 0 "unsupported value" (by decide) rfl (by decide) rfl rfl

theorem customRecords_spec {CI W : Type} (cl : CertLib CI W) :
    ∀ (hosts : List String) (records : List Record) (w : W),
      (customRecords cl hosts records w).1.map
          (fun r => (r.CloudProvider, r.CloudName, r.RecordType, r.RecordStatus, r.FullRecord,
            r.RecordValue))
        = records.map
            (fun r => (r.CloudProvider, r.CloudName, r.RecordType, r.RecordStatus,
              r.FullRecord, r.RecordValue))
          ++ hosts.map
            (fun v => ("custom_records", "custom_records", "CNAME", "enable", v, v)) := by
  intro hosts
  induction hosts with
  | nil => intro records w; simp [customRecords]
  | cons v rest ih =>
    intro records w
    simp only [customRecords]
    rw [ih]
    simp [CustomRecords]

/-- C14. For every list of configured hostnames and whatever the
registrable-domain lookup answers, `loadingCustomRecordCert` with an empty
list returns at once, the certificate cache and the world as they were, and
with a non-empty list it builds, by its first loop, exactly one synthetic
record per hostname, in configuration order, each with `CloudProvider` and
`CloudName` `custom_records`, `RecordType` `CNAME`, `RecordStatus` `enable`
and `FullRecord` and `RecordValue` the hostname; these records are what it
hands to `getNewRecord`, and what comes back is probed and cached under the
custom-record key. -/
theorem C14_custom_records {CI W : Type} (cl : CertLib CI W) (hosts : List String)
    (providers : List (String × List AccountAttrs)) (cache certCache : Cache) (w : W) :
    (customRecords cl hosts [] w).1.map
        (fun r => (r.CloudProvider, r.CloudName, r.RecordType, r.RecordStatus, r.FullRecord,
          r.RecordValue))
      = hosts.map (fun v => ("custom_records", "custom_records", "CNAME", "enable", v, v))
    ∧ (customRecords cl hosts [] w).1.length = hosts.length
    ∧ loadingCustomRecordCert cl { CustomRecords := hosts, CloudProviders := providers }
        cache certCache w
      = (match hosts with
         | [] => (certCache, w)
         | _ :: _ =>
           match cl.GetMultipleCertInfo
               ((cl.getNewRecord (customRecords cl hosts [] w).1 cache certCache
                  (customRecords cl hosts [] w).2).1.map certReqOfRecord)
               (cl.getNewRecord (customRecords cl hosts [] w).1 cache certCache
                  (customRecords cl hosts [] w).2).2 with
           | (.error _, w₃) => (certCache, w₃)
           | (.ok recordCerts, w₃) =>
             (certCacheSet cl certCache customRecordCertCacheKey
               (match cl.marshalCerts recordCerts with
                | .ok value => value
                | .error _ => ""), w₃)) := by
  have h := customRecords_spec cl hosts [] w
  simp only [List.map_nil, List.nil_append] at h
  refine ⟨h, ?_, ?_⟩
  · have hl := congrArg List.length h
    simpa using hl
  · cases hosts with
    | nil => simp [loadingCustomRecordCert]
    | cons v rest =>
      unfold loadingCustomRecordCert
      rw [if_neg (by simp)]

/-- Witness of C14: the hostname `status.example.com`, and a hostname whose
registrable-domain lookup fails; and the pass for `status.example.com` run
to its end, which caches the certificate result of that hostname under the
custom-record key. -/
theorem C14_custom_records_witness :
    (customRecords (demoCertLib true) ["status.example.com", "localhost"] [] 0).1.map
        (fun r => (r.CloudProvider, r.CloudName, r.RecordType, r.RecordStatus, r.FullRecord,
          r.RecordValue))
      = [("custom_records", "custom_records", "CNAME", "enable", "status.example.com",
          "status.example.com"),
         ("custom_records", "custom_records", "CNAME", "enable", "localhost", "localhost")]
    ∧ ((demoCertLib true).publicSuffixDomain "localhost").2 = some "no suffix"
    ∧ loadingCustomRecordCert (demoCertLib true)
        { CustomRecords := ["status.example.com"], CloudProviders := [] } [] [] 0
      = ([("record_cert_info_custom_records", "certs:status.example.com")], 1) :=
  ⟨(C14_custom_records (demoCertLib true) ["status.example.com", "localhost"] [] [] [] 0).1,
   rfl,
   (C14_custom_records (demoCertLib true) ["status.example.com"] [] [] [] 0).2.2⟩

end CloudDns
